import Mathlib

/-!
Shallow embedding of the object-detection benchmark engine
(`d3d/benchmarks.py`, class `ObjectBenchmark`).

Scores, thresholds and IoU values are modelled as rationals; the
geometric IoU matrix is an external input (as in the source, where
`box2d_iou` supplies it).  Class labels are natural numbers.  Python
dicts keyed by class become functions `ℕ → _`; Python lists of
per-level counters become `List ℕ` with Python's negative-index
wraparound modelled explicitly where queries use it.
-/

namespace D3dBenchmarks

/-- numpy `searchsorted` (side `left`) on an ascending list:
the length of the maximal prefix of elements `< v`. -/
def searchsorted (a : List ℚ) (v : ℚ) : ℕ :=
  (a.takeWhile (fun t => decide (t < v))).length

/-- A detection or ground-truth box: top class tag (`tag_top`) and
confidence score (`tag_score`). -/
structure Box where
  tag : ℕ
  score : ℚ

instance : Inhabited Box := ⟨⟨0, 0⟩⟩

/-- Benchmark configuration after `__init__`: tracked classes,
per-class IoU acceptance threshold (`_min_overlaps`), the score
threshold ladder (`_pr_thresholds`) and `_pr_nsamples`. -/
structure Config where
  classes : List ℕ
  minOverlaps : ℕ → ℚ
  thresholds : List ℚ
  nsamples : ℕ

/-- numpy `linspace(start, stop, num, endpoint=False)`. -/
def linspaceNoEndpoint (start stop : ℚ) (num : ℕ) : List ℚ :=
  (List.range num).map (fun i => start + (stop - start) * i / num)

/-- The `pr_sample_scale == "lin"` branch of `__init__`:
`np.linspace(min_score, 1, pr_sample_count, endpoint=False)`. -/
def prThresholdsLin (minScore : ℚ) (n : ℕ) : List ℚ :=
  linspaceNoEndpoint minScore 1 n

/-- Comparison of detection indices by their scores (`tag_score`),
used to model `np.argsort`. -/
def scoreLE (scores : List ℚ) (i j : ℕ) : Prop :=
  scores.getD i 0 ≤ scores.getD j 0

instance (scores : List ℚ) : DecidableRel (scoreLE scores) :=
  fun _ _ => inferInstanceAs (Decidable (_ ≤ _))

/-- `np.argsort` over box scores (ascending; tie order is
implementation detail, unspecified by the source). -/
def argsortAsc (scores : List ℚ) : List ℕ :=
  List.insertionSort (scoreLE scores) (List.range scores.length)

/-- `np.argsort(scores)[::-1]`: detection indices in descending score
order ("match from best score"). -/
def argsortDesc (scores : List ℚ) : List ℕ :=
  (argsortAsc scores).reverse

/-- Mutable state of the matching loop of `get_stats`:
`dt_assignment` / `gt_assignment` (per level, partial maps between
detection and ground-truth indices), with the `tp` / `fn` / `ngt`
counters. -/
structure MatchState where
  dtA : ℕ → ℕ → Option ℕ
  gtA : ℕ → ℕ → Option ℕ
  tp : ℕ → List ℕ
  fn : ℕ → List ℕ
  ngt : ℕ → ℕ

/-- The `{k: [0] * self._pr_nsamples for k in self._classes}`
initialisers:  tracked classes get a zero counter per level, other
keys are absent (modelled as the empty list). -/
def initCounts (cfg : Config) : ℕ → List ℕ :=
  fun k => if k ∈ cfg.classes then List.replicate cfg.nsamples 0 else []

def initMatchState (cfg : Config) : MatchState :=
  ⟨fun _ _ => none, fun _ _ => none, initCounts cfg, initCounts cfg, fun _ => 0⟩

/-- `l[i] += 1` on a Python counter list. -/
def listInc (l : List ℕ) (i : ℕ) : List ℕ :=
  l.set i (l.getD i 0 + 1)

/-- `d[k][i] += 1` on a dict of counter lists. -/
def updC (f : ℕ → List ℕ) (k i : ℕ) : ℕ → List ℕ :=
  fun x => if x = k then listInc (f k) i else f x

/-- The acceptance test of the inner scan of `get_stats`: the
detection's top tag equals the ground truth's and their IoU exceeds
the class threshold (`iou[gt_idx, dt_idx] > self._min_overlaps[gt_tag]`). -/
def matchPred (cfg : Config) (dts : List Box) (iou : ℕ → ℕ → ℚ) (gtag g d : ℕ) : Bool :=
  ((dts.getD d default).tag == gtag) && decide (cfg.minOverlaps gtag < iou g d)

/-- The scan `for dt_idx in order: ... break`: the first detection in
descending-score order accepted for ground truth `g`. -/
def findMatch (cfg : Config) (dts : List Box) (iou : ℕ → ℕ → ℚ) (order : List ℕ)
    (gtag g : ℕ) : Option ℕ :=
  order.find? (matchPred cfg dts iou gtag g)

/-- Body of `for score_idx in range(0, thres_loc)`: skip a level where
the detection is already assigned, otherwise record the pair in both
assignment maps. -/
def assignStep (g d : ℕ) (st : MatchState) (l : ℕ) : MatchState :=
  if (st.dtA l d).isSome then st
  else
    { st with
      dtA := fun a b => if a = l ∧ b = d then some g else st.dtA a b
      gtA := fun a b => if a = l ∧ b = g then some d else st.gtA a b }

/-- `for score_idx in range(0, thres_loc): ...` assignment loop. -/
def assignLevels (g d : ℕ) (lv : ℕ) (st : MatchState) : MatchState :=
  (List.range lv).foldl (assignStep g d) st

/-- Body of `for score_idx in range(self._pr_nsamples)`: count the
ground truth as true positive at levels where it is assigned, false
negative elsewhere. -/
def countStep (gtag g : ℕ) (st : MatchState) (i : ℕ) : MatchState :=
  if (st.gtA i g).isSome then { st with tp := updC st.tp gtag i }
  else { st with fn := updC st.fn gtag i }

def countLevels (cfg : Config) (gtag g : ℕ) (st : MatchState) : MatchState :=
  (List.range cfg.nsamples).foldl (countStep gtag g) st

/-- One iteration of `for gt_idx in range(len(gt_boxes))`. -/
def gtStep (cfg : Config) (gts dts : List Box) (iou : ℕ → ℕ → ℚ) (order : List ℕ)
    (st : MatchState) (g : ℕ) : MatchState :=
  let gtag := (gts.getD g default).tag
  if gtag ∈ cfg.classes then
    let st1 :=
      match findMatch cfg dts iou order gtag g with
      | some d => assignLevels g d (searchsorted cfg.thresholds (dts.getD d default).score) st
      | none => st
    let st2 := { st1 with ngt := fun x => if x = gtag then st1.ngt x + 1 else st1.ngt x }
    countLevels cfg gtag g st2
  else st

/-- The whole ground-truth loop of `get_stats`. -/
def matchLoop (cfg : Config) (gts dts : List Box) (iou : ℕ → ℕ → ℚ) (order : List ℕ) :
    MatchState :=
  (List.range gts.length).foldl (gtStep cfg gts dts iou order) (initMatchState cfg)

/-- Inner body of the false-positive loop: `ndt[k][l] += 1`, then
`fp[k][l] += 1` if the detection is unassigned at that level.
The pair carries `(fp, ndt)`. -/
def fpStepLevel (tag d : ℕ) (dtA : ℕ → ℕ → Option ℕ)
    (p : (ℕ → List ℕ) × (ℕ → List ℕ)) (l : ℕ) : (ℕ → List ℕ) × (ℕ → List ℕ) :=
  let p1 := (p.1, updC p.2 tag l)
  if (dtA l d).isNone then (updC p1.1 tag l, p1.2) else p1

/-- One iteration of `for dt_idx, dt_box in enumerate(dt_boxes)`:
note the source computes `thres_loc = np.searchsorted(...) - 1` here,
one less than in the assignment loop. -/
def fpStep (cfg : Config) (dts : List Box) (dtA : ℕ → ℕ → Option ℕ)
    (p : (ℕ → List ℕ) × (ℕ → List ℕ)) (d : ℕ) : (ℕ → List ℕ) × (ℕ → List ℕ) :=
  let tag := (dts.getD d default).tag
  if tag ∈ cfg.classes then
    (List.range (searchsorted cfg.thresholds (dts.getD d default).score - 1)).foldl
      (fpStepLevel tag d dtA) p
  else p

/-- The "compute false positives" loop of `get_stats`. -/
def fpPass (cfg : Config) (dts : List Box) (dtA : ℕ → ℕ → Option ℕ) :
    (ℕ → List ℕ) × (ℕ → List ℕ) :=
  (List.range dts.length).foldl (fpStep cfg dts dtA) (initCounts cfg, initCounts cfg)

/-- The edict returned by `get_stats`. -/
structure FrameStats where
  tp : ℕ → List ℕ
  fp : ℕ → List ℕ
  fn : ℕ → List ℕ
  ngt : ℕ → ℕ
  ndt : ℕ → List ℕ

/-- `ObjectBenchmark.get_stats` (per-frame matcher), with the IoU
matrix supplied externally as in the source. -/
def getStats (cfg : Config) (gts dts : List Box) (iou : ℕ → ℕ → ℚ) : FrameStats :=
  let order := argsortDesc (dts.map Box.score)
  let st := matchLoop cfg gts dts iou order
  let p := fpPass cfg dts st.dtA
  ⟨st.tp, p.1, st.fn, st.ngt, p.2⟩

/-- A box list together with its frame identifier
(`ObjectTarget3DArray` with its `frame`). -/
structure BoxArray where
  frame : ℕ
  boxes : List Box

/-- `get_stats` together with its entry assertion
`assert gt_boxes.frame == dt_boxes.frame`. -/
def getStatsChecked (cfg : Config) (gt dt : BoxArray) (iou : ℕ → ℕ → ℚ) :
    Except String FrameStats :=
  if gt.frame = dt.frame then .ok (getStats cfg gt.boxes dt.boxes iou)
  else .error "AssertionError"

/-- The in-loop assertion `assert thres_loc >= 0` of `get_stats`,
written over ℤ as the numpy comparison is. -/
def scoreAssertHolds (thresholds : List ℚ) (s : ℚ) : Prop :=
  (0 : ℤ) ≤ (searchsorted thresholds s : ℤ)

instance (thresholds : List ℚ) (s : ℚ) : Decidable (scoreAssertHolds thresholds s) :=
  inferInstanceAs (Decidable (_ ≤ _))

/-- Accumulated statistics (`_total_gt`, `_total_dt`, `_tp`, `_fp`, `_fn`). -/
structure AggState where
  totalGt : ℕ → ℕ
  totalDt : ℕ → List ℕ
  tp : ℕ → List ℕ
  fp : ℕ → List ℕ
  fn : ℕ → List ℕ

/-- The aggregated-statistics initialisers of `__init__`. -/
def initAgg (cfg : Config) : AggState :=
  ⟨fun _ => 0, initCounts cfg, initCounts cfg, initCounts cfg, initCounts cfg⟩

/-- `l[i] += v` on a Python counter list. -/
def listAddAt (l : List ℕ) (i v : ℕ) : List ℕ :=
  l.set i (l.getD i 0 + v)

/-- `d[k][i] += v` on a dict of counter lists. -/
def addC (f : ℕ → List ℕ) (k i v : ℕ) : ℕ → List ℕ :=
  fun x => if x = k then listAddAt (f k) i v else f x

/-- Body of the inner loop of `add_stats` (one class, one level). -/
def addCell (F : FrameStats) (k : ℕ) (S : AggState) (i : ℕ) : AggState :=
  { S with
    totalDt := addC S.totalDt k i ((F.ndt k).getD i 0)
    tp := addC S.tp k i ((F.tp k).getD i 0)
    fp := addC S.fp k i ((F.fp k).getD i 0)
    fn := addC S.fn k i ((F.fn k).getD i 0) }

/-- Body of the outer loop of `add_stats` (one class). -/
def addClass (cfg : Config) (F : FrameStats) (S : AggState) (k : ℕ) : AggState :=
  let S1 := { S with totalGt := fun x => if x = k then S.totalGt x + F.ngt k else S.totalGt x }
  (List.range cfg.nsamples).foldl (addCell F k) S1

/-- `ObjectBenchmark.add_stats`. -/
def addStats (cfg : Config) (S : AggState) (F : FrameStats) : AggState :=
  cfg.classes.foldl (addClass cfg F) S

/-- `ObjectBenchmark._get_score_idx`: the middle index when no score
is given, otherwise `np.searchsorted(self._pr_thresholds, score) - 1`
(an integer that can be `-1`). -/
def getScoreIdx (cfg : Config) (score : Option ℚ) : ℤ :=
  match score with
  | none => ((cfg.nsamples / 2 : ℕ) : ℤ)
  | some s => (searchsorted cfg.thresholds s : ℤ) - 1

/-- Python list indexing `l[i]` with an integer index: a negative
index wraps around from the end. -/
def pyGet (l : List ℕ) (i : ℤ) : ℕ :=
  if 0 ≤ i then l.getD i.toNat 0 else l.getD (l.length - (-i).toNat) 0

/-- `ObjectBenchmark.tp` at one class. -/
def tpQ (cfg : Config) (S : AggState) (score : Option ℚ) (k : ℕ) : ℕ :=
  pyGet (S.tp k) (getScoreIdx cfg score)

/-- `ObjectBenchmark.fp` at one class. -/
def fpQ (cfg : Config) (S : AggState) (score : Option ℚ) (k : ℕ) : ℕ :=
  pyGet (S.fp k) (getScoreIdx cfg score)

/-- `ObjectBenchmark.fn` at one class. -/
def fnQ (cfg : Config) (S : AggState) (score : Option ℚ) (k : ℕ) : ℕ :=
  pyGet (S.fn k) (getScoreIdx cfg score)

/-- `ObjectBenchmark.dt_count` at one class. -/
def dtQ (cfg : Config) (S : AggState) (score : Option ℚ) (k : ℕ) : ℕ :=
  pyGet (S.totalDt k) (getScoreIdx cfg score)

/-- `ObjectBenchmark.precision` with an explicit score, at one class:
`tp / (tp + fp) if fp > 0 else 1`. -/
def precisionQ (cfg : Config) (S : AggState) (score : Option ℚ) (k : ℕ) : ℚ :=
  let t := tpQ cfg S score k
  let f := fpQ cfg S score k
  if 0 < f then (t : ℚ) / ((t : ℚ) + (f : ℚ)) else 1

/-- `ObjectBenchmark.recall` with an explicit score, at one class. -/
def recallQ (cfg : Config) (S : AggState) (score : Option ℚ) (k : ℕ) : ℚ :=
  let t := tpQ cfg S score k
  let f := fnQ cfg S score k
  if 0 < f then (t : ℚ) / ((t : ℚ) + (f : ℚ)) else 1

/-- The `score is None` branch of `ObjectBenchmark.precision`
(per-class per-level curve): `1 if fp == 0 else tp / (tp + fp)`. -/
def precisionCurve (S : AggState) (k i : ℕ) : ℚ :=
  if (S.fp k).getD i 0 = 0 then 1
  else ((S.tp k).getD i 0 : ℚ) / (((S.tp k).getD i 0 : ℚ) + ((S.fp k).getD i 0 : ℚ))

/-- The `score is None` branch of `ObjectBenchmark.recall`. -/
def recallCurve (S : AggState) (k i : ℕ) : ℚ :=
  if (S.fn k).getD i 0 = 0 then 1
  else ((S.tp k).getD i 0 : ℚ) / (((S.tp k).getD i 0 : ℚ) + ((S.fn k).getD i 0 : ℚ))

/-- `ObjectBenchmark.fscore` with an explicit score, at one class:
the source computes `fs` and then executes `return r`. -/
def fscoreQAt (cfg : Config) (S : AggState) (beta s : ℚ) (k : ℕ) : ℚ :=
  let b2 := beta * beta
  let p := precisionQ cfg S (some s) k
  let r := recallQ cfg S (some s) k
  let fs := (1 + b2) * (p + r) / (b2 * p + r)
  r

/-- The `score is None` branch of `ObjectBenchmark.fscore`, at one
class and level: again the source ends with `return r`. -/
def fscoreCurve (S : AggState) (beta : ℚ) (k i : ℕ) : ℚ :=
  let b2 := beta * beta
  let p := precisionCurve S k i
  let r := recallCurve S k i
  let fs := (1 + b2) * (p + r) / (b2 * p + r)
  r

/-- The mathematically standard β-weighted F-score the specification
describes: `(1+β²)·P·R / (β²·P + R)`. -/
def specFScore (beta p r : ℚ) : ℚ :=
  (1 + beta * beta) * p * r / (beta * beta * p + r)


/-! ### Threshold-ladder construction (`__init__`), including the log branch -/

/-- numpy `geomspace(a, b, num)`: `num` points in geometric progression
from `a` to `b`, both endpoints included. -/
noncomputable def geomspace (a b : ℝ) (num : ℕ) : List ℝ :=
  (List.range num).map (fun i => a * (b / a) ^ ((i : ℝ) / ((num : ℝ) - 1)))

/-- The Python slice `[:1:-1]`: elements from the last index down to
index 2 inclusive, i.e. the reverse of everything after the first two. -/
def pySliceStop1Rev {α : Type} (l : List α) : List α :=
  (l.drop 2).reverse

/-- The `pr_sample_scale.startswith("log")` branch of `__init__`:
`geomspace(1, logend, pr_sample_count + 1)`, affine remap by
`(x - 1) * (1 - min_score) / (logend - 1)`, then `(1 - x)[:1:-1]`. -/
noncomputable def prThresholdsLog (minScore : ℝ) (logend : ℤ) (n : ℕ) : List ℝ :=
  let g0 := geomspace 1 (logend : ℝ) (n + 1)
  let g1 := g0.map (fun v => (v - 1) * (1 - minScore) / ((logend : ℝ) - 1))
  let g2 := g1.map (fun v => 1 - v)
  pySliceStop1Rev g2

/-! ### Construction-time parameter parsing (`__init__`, lines 19-41) -/

/-- The recognised `pr_sample_scale` modes. -/
inductive ScaleMode where
  | lin : ScaleMode
  | log : ℤ → ScaleMode

/-- The scale-mode dispatch of `__init__`: `"lin"`, or a string
starting with `"log"` whose remainder (defaulting to `"10"`) must
parse as an integer (`int(...)` raises `ValueError` otherwise), or
`raise ValueError("Unrecognized PR sample type")`. -/
def parseScaleMode (s : String) : Except String ScaleMode :=
  if s = "lin" then .ok .lin
  else if s.startsWith "log" then
    let rest := s.drop 3
    let rest := if rest = "" then "10" else rest
    match rest.toInt? with
    | some x => .ok (.log x)
    | none => .error "ValueError: invalid literal for int()"
  else .error "ValueError: Unrecognized PR sample type"

/-- The dict comprehension
`{classes[i]: v for i, v in enumerate(min_overlaps)}` for a list
argument: pairs values with classes positionally; `classes[i]` raises
`IndexError` when `min_overlaps` is longer than `classes`; a shorter
`min_overlaps` silently yields a smaller dict. -/
def mkMinOverlaps : List ℕ → List ℚ → Except String (List (ℕ × ℚ))
  | _, [] => .ok []
  | [], _ :: _ => .error "IndexError"
  | c :: cs, v :: vs =>
    match mkMinOverlaps cs vs with
    | .error e => .error e
    | .ok rest => .ok ((c, v) :: rest)

/-- The configuration assembled by `__init__` when both the class
list and the threshold-ladder mode are accepted. -/
structure InitConfig where
  classes : List ℕ
  minOverlaps : List (ℕ × ℚ)
  nsamples : ℕ
  minScore : ℚ
  scale : ScaleMode

/-- `ObjectBenchmark.__init__` with list-valued `classes` and
`min_overlaps`: builds the per-class overlap dict (which can raise
`IndexError`), then dispatches on the scale mode (which can raise
`ValueError`), in source order. -/
def benchmarkInit (classes : List ℕ) (overlaps : List ℚ) (n : ℕ) (minScore : ℚ)
    (scale : String) : Except String InitConfig :=
  match mkMinOverlaps classes overlaps with
  | .error e => .error e
  | .ok ov =>
    match parseScaleMode scale with
    | .error e => .error e
    | .ok sc => .ok ⟨classes, ov, n, minScore, sc⟩

/-! ### Accumulation over a run of frames -/

/-- One frame's matcher inputs: ground truths, detections and the
externally supplied IoU matrix. -/
structure FrameInput where
  gts : List Box
  dts : List Box
  iou : ℕ → ℕ → ℚ

/-- A whole run: `get_stats` on each frame, `add_stats` of each result
into the freshly initialised accumulator, in order. -/
def accumFrames (cfg : Config) (frames : List FrameInput) : AggState :=
  (frames.map (fun f => getStats cfg f.gts f.dts f.iou)).foldl (addStats cfg) (initAgg cfg)

/-! ### Concrete scenario of spec §8 ("Concrete scenario") and variants -/

/-- Ladder size 4, linear scale, min_score 0, one class `0` ("car")
with IoU threshold 1/2. -/
def cfg5 : Config :=
  { classes := [0], minOverlaps := fun _ => 1/2, thresholds := prThresholdsLin 0 4,
    nsamples := 4 }

/-- Two ground truths of score 1. -/
def gts5 : List Box := [⟨0, 1⟩, ⟨0, 1⟩]

/-- Detection A (index 0, score 0.9), detection B (index 1, score 0.3). -/
def dts5 : List Box := [⟨0, 9/10⟩, ⟨0, 3/10⟩]

/-- IoU(GT1, A) = 0.8, IoU(GT2, B) = 0.6, all other pairs 0. -/
def iou5 : ℕ → ℕ → ℚ := fun g d =>
  if g = 0 ∧ d = 0 then 8/10 else if g = 1 ∧ d = 1 then 6/10 else 0

def stats5 : FrameStats := getStats cfg5 gts5 dts5 iou5

def agg5 : AggState := addStats cfg5 (initAgg cfg5) stats5

/-- A two-level linear ladder over one class: thresholds `[0, 1/2]`. -/
def cfg3 : Config :=
  { classes := [0], minOverlaps := fun _ => 1/2, thresholds := prThresholdsLin 0 2,
    nsamples := 2 }

/-- One ground truth, one detection of score 0.9 overlapping it with
IoU 0.8: the detection is matched and assigned at both levels. -/
def stats3 : FrameStats := getStats cfg3 [⟨0, 1⟩] [⟨0, 9/10⟩] (fun _ _ => 8/10)



/-! ### Invariants of the matching loop and of accumulated statistics -/

/-- The instances needed to reason about the sortedness of `argsort`. -/
instance (scores : List ℚ) : IsTotal ℕ (scoreLE scores) :=
  ⟨fun _ _ => le_total _ _⟩

instance (scores : List ℚ) : IsTrans ℕ (scoreLE scores) :=
  ⟨fun _ _ _ => le_trans⟩

/-- The ladder index of a detection's own score
(`np.searchsorted(self._pr_thresholds, dt_boxes[dt_idx].tag_score)`). -/
def dtLoc (cfg : Config) (dts : List Box) (d : ℕ) : ℕ :=
  searchsorted cfg.thresholds (dts.getD d default).score

/-- `dt_assignment` is two-state per detection: either the detection
is assigned at no level, or it is assigned exactly at the levels
strictly below the ladder index of its own score. -/
def DtInv (cfg : Config) (dts : List Box) (st : MatchState) : Prop :=
  ∀ d, (∀ l, st.dtA l d = none) ∨ (∀ l, (st.dtA l d).isSome ↔ l < dtLoc cfg dts d)

/-- Ground truths not yet visited by the loop are unassigned. -/
def GtFresh (st : MatchState) (pending : List ℕ) : Prop :=
  ∀ g ∈ pending, ∀ l, st.gtA l g = none

/-- Every recorded `gt_assignment` entry points at the first
acceptable detection of the scan order for that ground truth. -/
def GtFirst (cfg : Config) (gts dts : List Box) (iou : ℕ → ℕ → ℚ) (order : List ℕ)
    (st : MatchState) : Prop :=
  ∀ g l d, st.gtA l g = some d →
    findMatch cfg dts iou order (gts.getD g default).tag g = some d

/-- Shape and monotonicity of the running counters: for every tracked
class the `tp`/`fn` rows have ladder length, `tp` is non-increasing
along levels, and `tp + fn` equals the processed ground-truth count at
every level. -/
def CountsInv (cfg : Config) (st : MatchState) : Prop :=
  ∀ k, k ∈ cfg.classes →
    (st.tp k).length = cfg.nsamples ∧ (st.fn k).length = cfg.nsamples ∧
    (∀ i, (st.tp k).getD (i + 1) 0 ≤ (st.tp k).getD i 0) ∧
    (∀ i, i < cfg.nsamples → (st.tp k).getD i 0 + (st.fn k).getD i 0 = st.ngt k)

/-- The part of `CountsInv` visible in a returned `FrameStats`. -/
def GoodStats (cfg : Config) (F : FrameStats) : Prop :=
  ∀ k, k ∈ cfg.classes →
    (∀ i, (F.tp k).getD (i + 1) 0 ≤ (F.tp k).getD i 0) ∧
    (∀ i, i < cfg.nsamples → (F.tp k).getD i 0 + (F.fn k).getD i 0 = F.ngt k)

/-- The corresponding invariant of the accumulated state. -/
def AggGood (cfg : Config) (A : AggState) : Prop :=
  ∀ k,
    (k ∈ cfg.classes →
      (A.tp k).length = cfg.nsamples ∧ (A.fn k).length = cfg.nsamples ∧
      (∀ i, (A.tp k).getD (i + 1) 0 ≤ (A.tp k).getD i 0) ∧
      (∀ i, i < cfg.nsamples → (A.tp k).getD i 0 + (A.fn k).getD i 0 = A.totalGt k)) ∧
    (k ∉ cfg.classes → ∀ i, (A.tp k).getD i 0 = 0 ∧ (A.fn k).getD i 0 = 0)

/-! ## Evaluation of the concrete scenarios -/

/-- The linear four-level ladder of the concrete scenario. -/
theorem cfg5_thresholds : cfg5.thresholds = [0, 1/4, 1/2, 3/4] := by
  norm_num [cfg5, prThresholdsLin, linspaceNoEndpoint, List.range_succ]

/-- Counter values accumulated from the single concrete frame. -/
theorem agg5_eval :
    agg5.tp 0 = [2, 2, 1, 1] ∧ agg5.fp 0 = [0, 0, 0, 0] ∧ agg5.fn 0 = [0, 0, 1, 1] ∧
    agg5.totalDt 0 = [2, 1, 1, 0] ∧ agg5.totalGt 0 = 2 := by
  norm_num [agg5, stats5, getStats, matchLoop, gtStep, countLevels, countStep, assignLevels,
    assignStep, findMatch, matchPred, argsortDesc, argsortAsc, scoreLE, searchsorted,
    initMatchState, initCounts, updC, listInc, cfg5, gts5, dts5, iou5, prThresholdsLin,
    linspaceNoEndpoint, List.range_succ, List.takeWhile, fpPass, fpStep, fpStepLevel,
    List.replicate, List.set, addStats, initAgg, addClass, addCell, addC, listAddAt]

/-- Score 3/4 translates to ladder level 2 (`searchsorted` finds 3,
then the query subtracts 1). -/
theorem cfg5_idx : getScoreIdx cfg5 (some (3/4)) = 2 := by
  norm_num [getScoreIdx, cfg5_thresholds, searchsorted, List.takeWhile]



/-! ## Claim theorems (concrete-evaluation part) -/

/-- Claim C5: in the concrete scenario (ladder size 4, linear scale,
min_score 0, one class with IoU threshold 0.5, two ground truths of
score 1 and detections A (score 0.9, IoU 0.8 with GT1) and B (score
0.3, IoU 0.6 with GT2)), after one `get_stats` and one `add_stats`,
the precision query at score 0.75 returns 1 and the recall query at
score 0.75 returns 1/2 for that class. -/
theorem claim5_concrete_scenario_precision_recall :
    precisionQ cfg5 agg5 (some (3/4)) 0 = 1 ∧ recallQ cfg5 agg5 (some (3/4)) 0 = 1/2 := by
  have h := agg5_eval
  norm_num [precisionQ, recallQ, tpQ, fpQ, fnQ, pyGet, cfg5_idx, h.1, h.2.1, h.2.2.1,
    List.getD_cons_zero, List.getD_cons_succ, Int.toNat]

/-- Claim C1 (refutation): `fscore` returns the recall value, not the
β-weighted F-score.  In every state and at every β and score the
explicit-score path returns exactly `recall`, and likewise the
default path; at the concrete scenario state with β = 1 and score
3/4 the returned value is 1/2 while the genuine F-score
`(1+β²)·P·R/(β²·P+R)` of precision 1 and recall 1/2 is 2/3. -/
theorem claim1_fscore_returns_recall :
    (∀ cfg S beta s k, fscoreQAt cfg S beta s k = recallQ cfg S (some s) k) ∧
    (∀ S beta k i, fscoreCurve S beta k i = recallCurve S k i) ∧
    fscoreQAt cfg5 agg5 1 (3/4) 0 = 1/2 ∧
    specFScore 1 (precisionQ cfg5 agg5 (some (3/4)) 0) (recallQ cfg5 agg5 (some (3/4)) 0)
      = 2/3 ∧
    (1/2 : ℚ) ≠ 2/3 := by
  have h := agg5_eval
  refine ⟨fun cfg S beta s k => rfl, fun S beta k i => rfl, ?_, ?_, by norm_num⟩
  · show recallQ cfg5 agg5 (some (3/4)) 0 = 1/2
    norm_num [recallQ, tpQ, fnQ, pyGet, cfg5_idx, h.1, h.2.2.1,
      List.getD_cons_zero, List.getD_cons_succ, Int.toNat]
  · have hp : precisionQ cfg5 agg5 (some (3/4)) 0 = 1 := by
      norm_num [precisionQ, tpQ, fpQ, pyGet, cfg5_idx, h.1, h.2.1,
        List.getD_cons_zero, List.getD_cons_succ, Int.toNat]
    have hr : recallQ cfg5 agg5 (some (3/4)) 0 = 1/2 := by
      norm_num [recallQ, tpQ, fnQ, pyGet, cfg5_idx, h.1, h.2.2.1,
        List.getD_cons_zero, List.getD_cons_succ, Int.toNat]
    rw [hp, hr]; norm_num [specFScore]

/-- Claim C6 (counterexample): in the accumulated state of the
concrete scenario, recall at level 2 is 1/2 while recall at level 1
is 1, so recall at level i+1 is NOT ≥ recall at level i (at i = 1). -/
theorem claim6_counterexample_recall_decreases :
    recallCurve agg5 0 1 = 1 ∧ recallCurve agg5 0 (1 + 1) = 1/2 ∧
    ¬ (recallCurve agg5 0 1 ≤ recallCurve agg5 0 (1 + 1)) := by
  have h := agg5_eval
  norm_num [recallCurve, h.1, h.2.2.1, List.getD_cons_zero, List.getD_cons_succ]

/-- Claim C3 (refutation at a concrete input): with the two-level
linear ladder and a single matched detection of score 0.9
(`searchsorted` index 2), the pair is a true positive at level 1,
yet the detections-observed count at level 1 is 0 (and so is the
false-positive count): the counting loop uses `searchsorted - 1`
while the assignment loop uses `searchsorted`. -/
theorem claim3_tp_level_without_detection_count :
    searchsorted cfg3.thresholds (9/10) = 2 ∧
    (stats3.tp 0).getD 1 0 = 1 ∧
    (stats3.ndt 0).getD 0 0 = 1 ∧
    (stats3.ndt 0).getD 1 0 = 0 ∧
    (stats3.fp 0).getD 1 0 = 0 := by
  norm_num [stats3, getStats, matchLoop, gtStep, countLevels, countStep, assignLevels,
    assignStep, findMatch, matchPred, argsortDesc, argsortAsc, scoreLE, searchsorted,
    initMatchState, initCounts, updC, listInc, cfg3, prThresholdsLin,
    linspaceNoEndpoint, List.range_succ, List.takeWhile, fpPass, fpStep, fpStepLevel,
    List.replicate, List.set, List.getD_cons_zero, List.getD_cons_succ]

/-- Claim C8 (refutation at a concrete input): a detection score of
-1/2 lies outside [min_score, 1] = [0, 1], yet the per-frame matcher
returns statistics normally: the source assertion
`thres_loc >= 0` compares a `searchsorted` result, which is never
negative, so it cannot fire. -/
theorem claim8_out_of_range_score_not_rejected :
    ¬ ((0 : ℚ) ≤ -(1/2)) ∧
    (∀ thresholds s, scoreAssertHolds thresholds s) ∧
    (getStatsChecked cfg3 ⟨7, [⟨0, 1⟩]⟩ ⟨7, [⟨0, -(1/2)⟩]⟩ (fun _ _ => 8/10)).isOk = true := by
  refine ⟨by norm_num, fun thresholds s => Int.natCast_nonneg _, ?_⟩
  rfl


/-- A `min_overlaps` list longer than the class list makes the dict
comprehension of `__init__` raise `IndexError`. -/
theorem mkMinOverlaps_longer_errors :
    ∀ (classes : List ℕ) (overlaps : List ℚ), classes.length < overlaps.length →
      ∃ e, mkMinOverlaps classes overlaps = Except.error e := by
  intro classes
  induction classes with
  | nil =>
    intro overlaps h
    cases overlaps with
    | nil => simp at h
    | cons v vs => exact ⟨"IndexError", rfl⟩
  | cons c cs ih =>
    intro overlaps h
    cases overlaps with
    | nil => simp at h
    | cons v vs =>
      obtain ⟨e, he⟩ := ih vs (by simpa using h)
      exact ⟨e, by simp [mkMinOverlaps, he]⟩

/-- Claim C9 (counterexample): a threshold list SHORTER than the class
list (lengths 1 vs 2) does not fail — construction succeeds, with the
second class silently left without a threshold. -/
theorem claim9_counterexample_short_list_accepted :
    ([0, 1] : List ℕ).length ≠ ([1/2] : List ℚ).length ∧
    benchmarkInit [0, 1] [1/2] 40 0 "lin"
      = Except.ok ⟨[0, 1], [(0, 1/2)], 40, 0, ScaleMode.lin⟩ := by
  constructor
  · simp
  · rfl

/-- Claim C9 (amended): construction fails with a fatal error whenever
the scale-mode string is unrecognized, and whenever the per-class IoU
threshold list is LONGER than the class list; both failures happen in
`__init__`, before any matching. -/
theorem claim9_construction_errors (classes : List ℕ) (overlaps : List ℚ) (n : ℕ)
    (m : ℚ) (scale : String)
    (h : (∃ e, parseScaleMode scale = Except.error e) ∨ classes.length < overlaps.length) :
    ∃ e, benchmarkInit classes overlaps n m scale = Except.error e := by
  rcases h with ⟨e, he⟩ | hlen
  · cases hmk : mkMinOverlaps classes overlaps with
    | error e2 => exact ⟨e2, by simp [benchmarkInit, hmk]⟩
    | ok ov => exact ⟨e, by simp [benchmarkInit, hmk, he]⟩
  · obtain ⟨e2, he2⟩ := mkMinOverlaps_longer_errors classes overlaps hlen
    exact ⟨e2, by simp [benchmarkInit, he2]⟩

/-- Witness for C9: a two-element overlap list with a single class is
rejected at construction time. -/
theorem claim9_witness :
    ∃ e, benchmarkInit [0] [1/2, 1/3] 40 0 "lin" = Except.error e :=
  claim9_construction_errors [0] [1/2, 1/3] 40 0 "lin" (Or.inr (by simp))

/-- Claim C4 (refutation at a concrete input): with N = 4 samples,
min_score 0 and scale mode log10, the constructed ladder holds 3
thresholds, not 4: the slice `[:1:-1]` drops two elements of the
N+1-point geometric sequence instead of one. -/
theorem claim4_log_ladder_has_one_fewer_threshold :
    (prThresholdsLog 0 10 4).length = 3 ∧ (3 : ℕ) ≠ 4 :=
  ⟨rfl, by decide⟩


/-! ## Characterisation of `add_stats` -/

theorem listAddAt_getD (l : List ℕ) (i v j : ℕ) :
    (listAddAt l i v).getD j 0 = l.getD j 0 + if j = i ∧ i < l.length then v else 0 := by
  unfold listAddAt
  simp only [List.getD_eq_getElem?_getD, List.getElem?_set]
  by_cases h1 : i = j
  · subst h1
    by_cases h2 : i < l.length
    · simp [h2, List.getElem?_eq_getElem h2, List.getD_eq_getElem?_getD]
    · simp [h2, List.getElem?_eq_none (by omega : l.length ≤ i)]
  · rw [if_neg h1, if_neg (by tauto)]
    simp

theorem addC_getD (f : ℕ → List ℕ) (k i v x j : ℕ) :
    (addC f k i v x).getD j 0
      = (f x).getD j 0 + if x = k ∧ j = i ∧ i < (f x).length then v else 0 := by
  unfold addC
  by_cases hx : x = k
  · subst hx
    rw [if_pos rfl, listAddAt_getD]
    simp [and_assoc]
  · simp [hx]

theorem addC_length (f : ℕ → List ℕ) (k i v x : ℕ) :
    (addC f k i v x).length = (f x).length := by
  unfold addC
  by_cases hx : x = k
  · subst hx; simp [listAddAt, List.length_set]
  · simp [hx]

theorem count_range (n j : ℕ) : (List.range n).count j = if j < n then 1 else 0 := by
  by_cases h : j < n
  · rw [if_pos h]
    exact List.count_eq_one_of_mem (List.nodup_range n) (List.mem_range.mpr h)
  · rw [if_neg h]
    exact List.count_eq_zero_of_not_mem (by simpa using h)

theorem addCellFold_totalGt (F : FrameStats) (k : ℕ) :
    ∀ (ls : List ℕ) (S : AggState), (ls.foldl (addCell F k) S).totalGt = S.totalGt := by
  intro ls
  induction ls with
  | nil => intro S; rfl
  | cons i rest ih =>
    intro S
    rw [List.foldl_cons, ih]
    rfl

theorem addCellFold_tp (F : FrameStats) (k : ℕ) :
    ∀ (ls : List ℕ) (S : AggState) (x j : ℕ),
      (((ls.foldl (addCell F k) S)).tp x).getD j 0
        = (S.tp x).getD j 0 +
          (if x = k ∧ j < (S.tp x).length then ls.count j * (F.tp k).getD j 0 else 0) := by
  intro ls
  induction ls with
  | nil => intro S x j; simp
  | cons i rest ih =>
    intro S x j
    rw [List.foldl_cons, ih]
    have hlen : ((addCell F k S i).tp x).length = (S.tp x).length := by
      simp [addCell, addC_length]
    have hget : ((addCell F k S i).tp x).getD j 0
        = (S.tp x).getD j 0
          + if x = k ∧ j = i ∧ i < (S.tp x).length then (F.tp k).getD i 0 else 0 := by
      show (addC S.tp k i ((F.tp k).getD i 0) x).getD j 0 = _
      exact addC_getD S.tp k i ((F.tp k).getD i 0) x j
    rw [hlen, hget, List.count_cons]
    by_cases hx : x = k
    · subst hx
      by_cases hji : j = i
      · subst hji
        by_cases hlt : j < (S.tp x).length
        · simp [hlt]; ring
        · simp [hlt]
      · simp [beq_iff_eq, hji, Ne.symm hji]
    · simp [hx]

theorem addCellFold_len_tp (F : FrameStats) (k : ℕ) :
    ∀ (ls : List ℕ) (S : AggState) (x : ℕ),
      ((ls.foldl (addCell F k) S).tp x).length = (S.tp x).length := by
  intro ls
  induction ls with
  | nil => intro S x; rfl
  | cons i rest ih =>
    intro S x
    rw [List.foldl_cons, ih]
    simp [addCell, addC_length]

theorem addClass_tp (cfg : Config) (F : FrameStats) (S : AggState) (k x j : ℕ) :
    ((addClass cfg F S k).tp x).getD j 0
      = (S.tp x).getD j 0
        + if x = k ∧ j < (S.tp x).length ∧ j < cfg.nsamples then (F.tp k).getD j 0 else 0 := by
  unfold addClass
  rw [addCellFold_tp, count_range]
  by_cases hx : x = k
  · subst hx
    by_cases hl : j < (S.tp x).length
    · by_cases hn : j < cfg.nsamples
      · simp [hl, hn]
      · simp [hl, hn]
    · simp [hl]
  · simp [hx]

theorem addClass_len_tp (cfg : Config) (F : FrameStats) (S : AggState) (k x : ℕ) :
    ((addClass cfg F S k).tp x).length = (S.tp x).length := by
  unfold addClass
  rw [addCellFold_len_tp]

theorem addStatsAux_tp (cfg : Config) (F : FrameStats) :
    ∀ (ks : List ℕ) (S : AggState) (x j : ℕ),
      ((ks.foldl (addClass cfg F) S).tp x).getD j 0
        = (S.tp x).getD j 0 +
          (if j < (S.tp x).length ∧ j < cfg.nsamples
            then ks.count x * (F.tp x).getD j 0 else 0) := by
  intro ks
  induction ks with
  | nil => intro S x j; simp
  | cons k rest ih =>
    intro S x j
    rw [List.foldl_cons, ih, addClass_len_tp, addClass_tp, List.count_cons]
    by_cases hx : x = k
    · subst hx
      by_cases hl : j < (S.tp x).length
      · by_cases hn : j < cfg.nsamples
        · simp [hl, hn]; ring
        · simp [hl, hn]
      · simp [hl]
    · simp [beq_iff_eq, hx, Ne.symm hx]

theorem addStats_tp (cfg : Config) (S : AggState) (F : FrameStats) (x j : ℕ) :
    ((addStats cfg S F).tp x).getD j 0
      = (S.tp x).getD j 0 +
        (if j < (S.tp x).length ∧ j < cfg.nsamples
          then cfg.classes.count x * (F.tp x).getD j 0 else 0) := by
  unfold addStats
  rw [addStatsAux_tp]

theorem addStats_len_tp (cfg : Config) (S : AggState) (F : FrameStats) (x : ℕ) :
    ((addStats cfg S F).tp x).length = (S.tp x).length := by
  unfold addStats
  induction cfg.classes generalizing S with
  | nil => rfl
  | cons k rest ih =>
    rw [List.foldl_cons, ih, addClass_len_tp]

theorem addCellFold_fp (F : FrameStats) (k : ℕ) :
    ∀ (ls : List ℕ) (S : AggState) (x j : ℕ),
      (((ls.foldl (addCell F k) S)).fp x).getD j 0
        = (S.fp x).getD j 0 +
          (if x = k ∧ j < (S.fp x).length then ls.count j * (F.fp k).getD j 0 else 0) := by
  intro ls
  induction ls with
  | nil => intro S x j; simp
  | cons i rest ih =>
    intro S x j
    rw [List.foldl_cons, ih]
    have hlen : ((addCell F k S i).fp x).length = (S.fp x).length := by
      simp [addCell, addC_length]
    have hget : ((addCell F k S i).fp x).getD j 0
        = (S.fp x).getD j 0
          + if x = k ∧ j = i ∧ i < (S.fp x).length then (F.fp k).getD i 0 else 0 := by
      show (addC S.fp k i ((F.fp k).getD i 0) x).getD j 0 = _
      exact addC_getD S.fp k i ((F.fp k).getD i 0) x j
    rw [hlen, hget, List.count_cons]
    by_cases hx : x = k
    · subst hx
      by_cases hji : j = i
      · subst hji
        by_cases hlt : j < (S.fp x).length
        · simp [hlt]; ring
        · simp [hlt]
      · simp [beq_iff_eq, hji, Ne.symm hji]
    · simp [hx]

theorem addCellFold_len_fp (F : FrameStats) (k : ℕ) :
    ∀ (ls : List ℕ) (S : AggState) (x : ℕ),
      ((ls.foldl (addCell F k) S).fp x).length = (S.fp x).length := by
  intro ls
  induction ls with
  | nil => intro S x; rfl
  | cons i rest ih =>
    intro S x
    rw [List.foldl_cons, ih]
    simp [addCell, addC_length]

theorem addClass_fp (cfg : Config) (F : FrameStats) (S : AggState) (k x j : ℕ) :
    ((addClass cfg F S k).fp x).getD j 0
      = (S.fp x).getD j 0
        + if x = k ∧ j < (S.fp x).length ∧ j < cfg.nsamples then (F.fp k).getD j 0 else 0 := by
  unfold addClass
  rw [addCellFold_fp, count_range]
  by_cases hx : x = k
  · subst hx
    by_cases hl : j < (S.fp x).length
    · by_cases hn : j < cfg.nsamples
      · simp [hl, hn]
      · simp [hl, hn]
    · simp [hl]
  · simp [hx]

theorem addClass_len_fp (cfg : Config) (F : FrameStats) (S : AggState) (k x : ℕ) :
    ((addClass cfg F S k).fp x).length = (S.fp x).length := by
  unfold addClass
  rw [addCellFold_len_fp]

theorem addStatsAux_fp (cfg : Config) (F : FrameStats) :
    ∀ (ks : List ℕ) (S : AggState) (x j : ℕ),
      ((ks.foldl (addClass cfg F) S).fp x).getD j 0
        = (S.fp x).getD j 0 +
          (if j < (S.fp x).length ∧ j < cfg.nsamples
            then ks.count x * (F.fp x).getD j 0 else 0) := by
  intro ks
  induction ks with
  | nil => intro S x j; simp
  | cons k rest ih =>
    intro S x j
    rw [List.foldl_cons, ih, addClass_len_fp, addClass_fp, List.count_cons]
    by_cases hx : x = k
    · subst hx
      by_cases hl : j < (S.fp x).length
      · by_cases hn : j < cfg.nsamples
        · simp [hl, hn]; ring
        · simp [hl, hn]
      · simp [hl]
    · simp [beq_iff_eq, hx, Ne.symm hx]

theorem addStats_fp (cfg : Config) (S : AggState) (F : FrameStats) (x j : ℕ) :
    ((addStats cfg S F).fp x).getD j 0
      = (S.fp x).getD j 0 +
        (if j < (S.fp x).length ∧ j < cfg.nsamples
          then cfg.classes.count x * (F.fp x).getD j 0 else 0) := by
  unfold addStats
  rw [addStatsAux_fp]

theorem addStats_len_fp (cfg : Config) (S : AggState) (F : FrameStats) (x : ℕ) :
    ((addStats cfg S F).fp x).length = (S.fp x).length := by
  unfold addStats
  induction cfg.classes generalizing S with
  | nil => rfl
  | cons k rest ih =>
    rw [List.foldl_cons, ih, addClass_len_fp]

theorem addCellFold_fn (F : FrameStats) (k : ℕ) :
    ∀ (ls : List ℕ) (S : AggState) (x j : ℕ),
      (((ls.foldl (addCell F k) S)).fn x).getD j 0
        = (S.fn x).getD j 0 +
          (if x = k ∧ j < (S.fn x).length then ls.count j * (F.fn k).getD j 0 else 0) := by
  intro ls
  induction ls with
  | nil => intro S x j; simp
  | cons i rest ih =>
    intro S x j
    rw [List.foldl_cons, ih]
    have hlen : ((addCell F k S i).fn x).length = (S.fn x).length := by
      simp [addCell, addC_length]
    have hget : ((addCell F k S i).fn x).getD j 0
        = (S.fn x).getD j 0
          + if x = k ∧ j = i ∧ i < (S.fn x).length then (F.fn k).getD i 0 else 0 := by
      show (addC S.fn k i ((F.fn k).getD i 0) x).getD j 0 = _
      exact addC_getD S.fn k i ((F.fn k).getD i 0) x j
    rw [hlen, hget, List.count_cons]
    by_cases hx : x = k
    · subst hx
      by_cases hji : j = i
      · subst hji
        by_cases hlt : j < (S.fn x).length
        · simp [hlt]; ring
        · simp [hlt]
      · simp [beq_iff_eq, hji, Ne.symm hji]
    · simp [hx]

theorem addCellFold_len_fn (F : FrameStats) (k : ℕ) :
    ∀ (ls : List ℕ) (S : AggState) (x : ℕ),
      ((ls.foldl (addCell F k) S).fn x).length = (S.fn x).length := by
  intro ls
  induction ls with
  | nil => intro S x; rfl
  | cons i rest ih =>
    intro S x
    rw [List.foldl_cons, ih]
    simp [addCell, addC_length]

theorem addClass_fn (cfg : Config) (F : FrameStats) (S : AggState) (k x j : ℕ) :
    ((addClass cfg F S k).fn x).getD j 0
      = (S.fn x).getD j 0
        + if x = k ∧ j < (S.fn x).length ∧ j < cfg.nsamples then (F.fn k).getD j 0 else 0 := by
  unfold addClass
  rw [addCellFold_fn, count_range]
  by_cases hx : x = k
  · subst hx
    by_cases hl : j < (S.fn x).length
    · by_cases hn : j < cfg.nsamples
      · simp [hl, hn]
      · simp [hl, hn]
    · simp [hl]
  · simp [hx]

theorem addClass_len_fn (cfg : Config) (F : FrameStats) (S : AggState) (k x : ℕ) :
    ((addClass cfg F S k).fn x).length = (S.fn x).length := by
  unfold addClass
  rw [addCellFold_len_fn]

theorem addStatsAux_fn (cfg : Config) (F : FrameStats) :
    ∀ (ks : List ℕ) (S : AggState) (x j : ℕ),
      ((ks.foldl (addClass cfg F) S).fn x).getD j 0
        = (S.fn x).getD j 0 +
          (if j < (S.fn x).length ∧ j < cfg.nsamples
            then ks.count x * (F.fn x).getD j 0 else 0) := by
  intro ks
  induction ks with
  | nil => intro S x j; simp
  | cons k rest ih =>
    intro S x j
    rw [List.foldl_cons, ih, addClass_len_fn, addClass_fn, List.count_cons]
    by_cases hx : x = k
    · subst hx
      by_cases hl : j < (S.fn x).length
      · by_cases hn : j < cfg.nsamples
        · simp [hl, hn]; ring
        · simp [hl, hn]
      · simp [hl]
    · simp [beq_iff_eq, hx, Ne.symm hx]

theorem addStats_fn (cfg : Config) (S : AggState) (F : FrameStats) (x j : ℕ) :
    ((addStats cfg S F).fn x).getD j 0
      = (S.fn x).getD j 0 +
        (if j < (S.fn x).length ∧ j < cfg.nsamples
          then cfg.classes.count x * (F.fn x).getD j 0 else 0) := by
  unfold addStats
  rw [addStatsAux_fn]

theorem addStats_len_fn (cfg : Config) (S : AggState) (F : FrameStats) (x : ℕ) :
    ((addStats cfg S F).fn x).length = (S.fn x).length := by
  unfold addStats
  induction cfg.classes generalizing S with
  | nil => rfl
  | cons k rest ih =>
    rw [List.foldl_cons, ih, addClass_len_fn]

theorem addCellFold_totalDt (F : FrameStats) (k : ℕ) :
    ∀ (ls : List ℕ) (S : AggState) (x j : ℕ),
      (((ls.foldl (addCell F k) S)).totalDt x).getD j 0
        = (S.totalDt x).getD j 0 +
          (if x = k ∧ j < (S.totalDt x).length then ls.count j * (F.ndt k).getD j 0 else 0) := by
  intro ls
  induction ls with
  | nil => intro S x j; simp
  | cons i rest ih =>
    intro S x j
    rw [List.foldl_cons, ih]
    have hlen : ((addCell F k S i).totalDt x).length = (S.totalDt x).length := by
      simp [addCell, addC_length]
    have hget : ((addCell F k S i).totalDt x).getD j 0
        = (S.totalDt x).getD j 0
          + if x = k ∧ j = i ∧ i < (S.totalDt x).length then (F.ndt k).getD i 0 else 0 := by
      show (addC S.totalDt k i ((F.ndt k).getD i 0) x).getD j 0 = _
      exact addC_getD S.totalDt k i ((F.ndt k).getD i 0) x j
    rw [hlen, hget, List.count_cons]
    by_cases hx : x = k
    · subst hx
      by_cases hji : j = i
      · subst hji
        by_cases hlt : j < (S.totalDt x).length
        · simp [hlt]; ring
        · simp [hlt]
      · simp [beq_iff_eq, hji, Ne.symm hji]
    · simp [hx]

theorem addCellFold_len_totalDt (F : FrameStats) (k : ℕ) :
    ∀ (ls : List ℕ) (S : AggState) (x : ℕ),
      ((ls.foldl (addCell F k) S).totalDt x).length = (S.totalDt x).length := by
  intro ls
  induction ls with
  | nil => intro S x; rfl
  | cons i rest ih =>
    intro S x
    rw [List.foldl_cons, ih]
    simp [addCell, addC_length]

theorem addClass_totalDt (cfg : Config) (F : FrameStats) (S : AggState) (k x j : ℕ) :
    ((addClass cfg F S k).totalDt x).getD j 0
      = (S.totalDt x).getD j 0
        + if x = k ∧ j < (S.totalDt x).length ∧ j < cfg.nsamples then (F.ndt k).getD j 0 else 0 := by
  unfold addClass
  rw [addCellFold_totalDt, count_range]
  by_cases hx : x = k
  · subst hx
    by_cases hl : j < (S.totalDt x).length
    · by_cases hn : j < cfg.nsamples
      · simp [hl, hn]
      · simp [hl, hn]
    · simp [hl]
  · simp [hx]

theorem addClass_len_totalDt (cfg : Config) (F : FrameStats) (S : AggState) (k x : ℕ) :
    ((addClass cfg F S k).totalDt x).length = (S.totalDt x).length := by
  unfold addClass
  rw [addCellFold_len_totalDt]

theorem addStatsAux_totalDt (cfg : Config) (F : FrameStats) :
    ∀ (ks : List ℕ) (S : AggState) (x j : ℕ),
      ((ks.foldl (addClass cfg F) S).totalDt x).getD j 0
        = (S.totalDt x).getD j 0 +
          (if j < (S.totalDt x).length ∧ j < cfg.nsamples
            then ks.count x * (F.ndt x).getD j 0 else 0) := by
  intro ks
  induction ks with
  | nil => intro S x j; simp
  | cons k rest ih =>
    intro S x j
    rw [List.foldl_cons, ih, addClass_len_totalDt, addClass_totalDt, List.count_cons]
    by_cases hx : x = k
    · subst hx
      by_cases hl : j < (S.totalDt x).length
      · by_cases hn : j < cfg.nsamples
        · simp [hl, hn]; ring
        · simp [hl, hn]
      · simp [hl]
    · simp [beq_iff_eq, hx, Ne.symm hx]

theorem addStats_totalDt (cfg : Config) (S : AggState) (F : FrameStats) (x j : ℕ) :
    ((addStats cfg S F).totalDt x).getD j 0
      = (S.totalDt x).getD j 0 +
        (if j < (S.totalDt x).length ∧ j < cfg.nsamples
          then cfg.classes.count x * (F.ndt x).getD j 0 else 0) := by
  unfold addStats
  rw [addStatsAux_totalDt]

theorem addStats_len_totalDt (cfg : Config) (S : AggState) (F : FrameStats) (x : ℕ) :
    ((addStats cfg S F).totalDt x).length = (S.totalDt x).length := by
  unfold addStats
  induction cfg.classes generalizing S with
  | nil => rfl
  | cons k rest ih =>
    rw [List.foldl_cons, ih, addClass_len_totalDt]

theorem addClass_totalGt (cfg : Config) (F : FrameStats) (S : AggState) (k x : ℕ) :
    (addClass cfg F S k).totalGt x = S.totalGt x + if x = k then F.ngt k else 0 := by
  unfold addClass
  rw [addCellFold_totalGt]
  by_cases hx : x = k
  · subst hx; simp
  · simp [hx]

theorem addStats_totalGt (cfg : Config) (S : AggState) (F : FrameStats) (x : ℕ) :
    (addStats cfg S F).totalGt x = S.totalGt x + cfg.classes.count x * F.ngt x := by
  unfold addStats
  induction cfg.classes generalizing S with
  | nil => simp
  | cons k rest ih =>
    rw [List.foldl_cons, ih, addClass_totalGt, List.count_cons]
    by_cases hx : x = k
    · subst hx; simp; ring
    · simp [beq_iff_eq, hx, Ne.symm hx]


/-- Claim C7: merging two frames' statistics into any starting
accumulator state yields the same totals (tp, fp, fn, ground-truth
count, detection count, at every class and level) in either order. -/
theorem claim7_addStats_order_independent (cfg : Config) (S : AggState) (F1 F2 : FrameStats)
    (hshape : ∀ k, (F1.tp k).length = (F2.tp k).length ∧ (F1.fp k).length = (F2.fp k).length
      ∧ (F1.fn k).length = (F2.fn k).length ∧ (F1.ndt k).length = (F2.ndt k).length) :
    ∀ k i,
      ((addStats cfg (addStats cfg S F1) F2).tp k).getD i 0
        = ((addStats cfg (addStats cfg S F2) F1).tp k).getD i 0 ∧
      ((addStats cfg (addStats cfg S F1) F2).fp k).getD i 0
        = ((addStats cfg (addStats cfg S F2) F1).fp k).getD i 0 ∧
      ((addStats cfg (addStats cfg S F1) F2).fn k).getD i 0
        = ((addStats cfg (addStats cfg S F2) F1).fn k).getD i 0 ∧
      ((addStats cfg (addStats cfg S F1) F2).totalDt k).getD i 0
        = ((addStats cfg (addStats cfg S F2) F1).totalDt k).getD i 0 ∧
      (addStats cfg (addStats cfg S F1) F2).totalGt k
        = (addStats cfg (addStats cfg S F2) F1).totalGt k := by
  intro k i
  refine ⟨?_, ?_, ?_, ?_, ?_⟩
  · rw [addStats_tp, addStats_tp, addStats_tp, addStats_tp, addStats_len_tp, addStats_len_tp]
    by_cases h : i < (S.tp k).length ∧ i < cfg.nsamples
    · simp only [if_pos h]; ring
    · simp only [if_neg h]
  · rw [addStats_fp, addStats_fp, addStats_fp, addStats_fp, addStats_len_fp, addStats_len_fp]
    by_cases h : i < (S.fp k).length ∧ i < cfg.nsamples
    · simp only [if_pos h]; ring
    · simp only [if_neg h]
  · rw [addStats_fn, addStats_fn, addStats_fn, addStats_fn, addStats_len_fn, addStats_len_fn]
    by_cases h : i < (S.fn k).length ∧ i < cfg.nsamples
    · simp only [if_pos h]; ring
    · simp only [if_neg h]
  · rw [addStats_totalDt, addStats_totalDt, addStats_totalDt, addStats_totalDt,
      addStats_len_totalDt, addStats_len_totalDt]
    by_cases h : i < (S.totalDt k).length ∧ i < cfg.nsamples
    · simp only [if_pos h]; ring
    · simp only [if_neg h]
  · rw [addStats_totalGt, addStats_totalGt, addStats_totalGt, addStats_totalGt]
    ring

/-- Witness for C7 at a concrete configuration, accumulator and frame
statistics. -/
theorem claim7_witness :
    ((addStats cfg3 (addStats cfg3 (initAgg cfg3) stats3) stats3).tp 0).getD 0 0
      = ((addStats cfg3 (addStats cfg3 (initAgg cfg3) stats3) stats3).tp 0).getD 0 0 ∧
    ((addStats cfg3 (addStats cfg3 (initAgg cfg3) stats3) stats3).fp 0).getD 0 0
      = ((addStats cfg3 (addStats cfg3 (initAgg cfg3) stats3) stats3).fp 0).getD 0 0 ∧
    ((addStats cfg3 (addStats cfg3 (initAgg cfg3) stats3) stats3).fn 0).getD 0 0
      = ((addStats cfg3 (addStats cfg3 (initAgg cfg3) stats3) stats3).fn 0).getD 0 0 ∧
    ((addStats cfg3 (addStats cfg3 (initAgg cfg3) stats3) stats3).totalDt 0).getD 0 0
      = ((addStats cfg3 (addStats cfg3 (initAgg cfg3) stats3) stats3).totalDt 0).getD 0 0 ∧
    (addStats cfg3 (addStats cfg3 (initAgg cfg3) stats3) stats3).totalGt 0
      = (addStats cfg3 (addStats cfg3 (initAgg cfg3) stats3) stats3).totalGt 0 :=
  claim7_addStats_order_independent cfg3 (initAgg cfg3) stats3 stats3
    (fun _ => ⟨rfl, rfl, rfl, rfl⟩) 0 0

/-! ## Characterisation of the assignment loop -/

theorem assignFold_dtA (g d : ℕ) :
    ∀ (ls : List ℕ) (st : MatchState) (a b : ℕ),
      ((ls.foldl (assignStep g d) st).dtA a b)
        = if a ∈ ls ∧ b = d ∧ st.dtA a d = none then some g else st.dtA a b := by
  intro ls
  induction ls with
  | nil => intro st a b; simp
  | cons l rest ih =>
    intro st a b
    rw [List.foldl_cons]
    cases hl : st.dtA l d with
    | some v =>
      have hstep : assignStep g d st l = st := by
        simp [assignStep, hl]
      rw [hstep, ih]
      by_cases ha : a = l
      · subst ha
        simp [hl]
      · simp only [List.mem_cons, ha, false_or]
    | none =>
      have hstep : assignStep g d st l
          = { st with
              dtA := fun a b => if a = l ∧ b = d then some g else st.dtA a b
              gtA := fun a b => if a = l ∧ b = g then some d else st.gtA a b } := by
        simp [assignStep, hl]
      rw [hstep, ih]
      by_cases ha : a = l
      · subst ha
        by_cases hb : b = d
        · subst hb
          simp [hl]
        · simp [hb, hl]
      · simp only [List.mem_cons, ha, false_or]
        by_cases hb : b = d
        · subst hb
          simp [ha]
        · simp [ha, hb]

theorem assignFold_gtA (g d : ℕ) :
    ∀ (ls : List ℕ) (st : MatchState) (a b : ℕ),
      ((ls.foldl (assignStep g d) st).gtA a b)
        = if a ∈ ls ∧ b = g ∧ st.dtA a d = none then some d else st.gtA a b := by
  intro ls
  induction ls with
  | nil => intro st a b; simp
  | cons l rest ih =>
    intro st a b
    rw [List.foldl_cons]
    cases hl : st.dtA l d with
    | some v =>
      have hstep : assignStep g d st l = st := by
        simp [assignStep, hl]
      rw [hstep, ih]
      by_cases ha : a = l
      · subst ha
        simp [hl]
      · simp only [List.mem_cons, ha, false_or]
    | none =>
      have hstep : assignStep g d st l
          = { st with
              dtA := fun a b => if a = l ∧ b = d then some g else st.dtA a b
              gtA := fun a b => if a = l ∧ b = g then some d else st.gtA a b } := by
        simp [assignStep, hl]
      rw [hstep, ih]
      by_cases ha : a = l
      · subst ha
        by_cases hb : b = g
        · subst hb
          simp [hl]
        · simp [hb, hl]
      · simp only [List.mem_cons, ha, false_or]
        by_cases hb : b = g
        · subst hb
          simp [ha]
        · simp [ha, hb]

theorem assignFold_rest (g d : ℕ) :
    ∀ (ls : List ℕ) (st : MatchState),
      (ls.foldl (assignStep g d) st).tp = st.tp ∧
      (ls.foldl (assignStep g d) st).fn = st.fn ∧
      (ls.foldl (assignStep g d) st).ngt = st.ngt := by
  intro ls
  induction ls with
  | nil => intro st; exact ⟨rfl, rfl, rfl⟩
  | cons l rest ih =>
    intro st
    rw [List.foldl_cons]
    rcases ih (assignStep g d st l) with ⟨h1, h2, h3⟩
    refine ⟨h1.trans ?_, h2.trans ?_, h3.trans ?_⟩ <;>
      simp [assignStep] <;> split <;> rfl


/-! ## Characterisation of the tp/fn counting loop -/

theorem updC_getD (f : ℕ → List ℕ) (k i x j : ℕ) :
    (updC f k i x).getD j 0
      = (f x).getD j 0 + if x = k ∧ j = i ∧ i < (f x).length then 1 else 0 :=
  addC_getD f k i 1 x j

theorem updC_length (f : ℕ → List ℕ) (k i x : ℕ) :
    (updC f k i x).length = (f x).length :=
  addC_length f k i 1 x

theorem countFold_rest (gtag g : ℕ) :
    ∀ (ls : List ℕ) (st : MatchState),
      (ls.foldl (countStep gtag g) st).dtA = st.dtA ∧
      (ls.foldl (countStep gtag g) st).gtA = st.gtA ∧
      (ls.foldl (countStep gtag g) st).ngt = st.ngt := by
  intro ls
  induction ls with
  | nil => intro st; exact ⟨rfl, rfl, rfl⟩
  | cons i rest ih =>
    intro st
    rw [List.foldl_cons]
    rcases ih (countStep gtag g st i) with ⟨h1, h2, h3⟩
    refine ⟨h1.trans ?_, h2.trans ?_, h3.trans ?_⟩ <;>
      simp [countStep] <;> split <;> rfl

theorem countFold_len (gtag g : ℕ) :
    ∀ (ls : List ℕ) (st : MatchState) (x : ℕ),
      ((ls.foldl (countStep gtag g) st).tp x).length = (st.tp x).length ∧
      ((ls.foldl (countStep gtag g) st).fn x).length = (st.fn x).length := by
  intro ls
  induction ls with
  | nil => intro st x; exact ⟨rfl, rfl⟩
  | cons i rest ih =>
    intro st x
    rw [List.foldl_cons]
    rcases ih (countStep gtag g st i) x with ⟨h1, h2⟩
    refine ⟨h1.trans ?_, h2.trans ?_⟩ <;>
      simp only [countStep] <;> split <;> simp [updC_length]

theorem countFold_tp (gtag g : ℕ) :
    ∀ (ls : List ℕ) (st : MatchState) (x j : ℕ),
      ((ls.foldl (countStep gtag g) st).tp x).getD j 0
        = (st.tp x).getD j 0 +
          (if x = gtag ∧ (st.gtA j g).isSome = true ∧ j < (st.tp x).length
            then ls.count j else 0) := by
  intro ls
  induction ls with
  | nil => intro st x j; simp
  | cons i rest ih =>
    intro st x j
    rw [List.foldl_cons, ih]
    have hgtA : (countStep gtag g st i).gtA = st.gtA := by
      simp only [countStep]; split <;> rfl
    have hlen : ((countStep gtag g st i).tp x).length = (st.tp x).length := by
      simp only [countStep]; split <;> simp [updC_length]
    have hget : ((countStep gtag g st i).tp x).getD j 0
        = (st.tp x).getD j 0 +
          (if (st.gtA i g).isSome = true ∧ x = gtag ∧ j = i ∧ i < (st.tp x).length
            then 1 else 0) := by
      simp only [countStep]
      by_cases hs : (st.gtA i g).isSome = true
      · rw [if_pos hs]
        show (updC st.tp gtag i x).getD j 0 = _
        rw [updC_getD]
        simp [hs, and_assoc]
      · rw [if_neg hs]
        simp [hs]
    rw [hgtA, hlen, hget, List.count_cons]
    by_cases hx : x = gtag
    · subst hx
      by_cases hji : j = i
      · subst hji
        by_cases hs : (st.gtA j g).isSome = true
        · by_cases hl : j < (st.tp x).length
          · simp [hs, hl]
            omega
          · simp [hs, hl]
        · simp [hs]
      · have : (i == j) = false := by
          simp [beq_iff_eq]
          omega
        simp [hji, this, Ne.symm hji]
    · simp [hx]

theorem countFold_fn (gtag g : ℕ) :
    ∀ (ls : List ℕ) (st : MatchState) (x j : ℕ),
      ((ls.foldl (countStep gtag g) st).fn x).getD j 0
        = (st.fn x).getD j 0 +
          (if x = gtag ∧ (st.gtA j g).isSome = false ∧ j < (st.fn x).length
            then ls.count j else 0) := by
  intro ls
  induction ls with
  | nil => intro st x j; simp
  | cons i rest ih =>
    intro st x j
    rw [List.foldl_cons, ih]
    have hgtA : (countStep gtag g st i).gtA = st.gtA := by
      simp only [countStep]; split <;> rfl
    have hlen : ((countStep gtag g st i).fn x).length = (st.fn x).length := by
      simp only [countStep]; split <;> simp [updC_length]
    have hget : ((countStep gtag g st i).fn x).getD j 0
        = (st.fn x).getD j 0 +
          (if (st.gtA i g).isSome = false ∧ x = gtag ∧ j = i ∧ i < (st.fn x).length
            then 1 else 0) := by
      simp only [countStep]
      by_cases hs : (st.gtA i g).isSome = true
      · rw [if_pos hs]
        simp [hs]
      · rw [if_neg hs]
        show (updC st.fn gtag i x).getD j 0 = _
        rw [updC_getD]
        simp only [Bool.not_eq_true] at hs
        simp [hs, and_assoc]
    rw [hgtA, hlen, hget, List.count_cons]
    by_cases hx : x = gtag
    · subst hx
      by_cases hji : j = i
      · subst hji
        by_cases hs : (st.gtA j g).isSome = false
        · by_cases hl : j < (st.fn x).length
          · simp [hs, hl]
            omega
          · simp [hs, hl]
        · simp [hs]
      · have : (i == j) = false := by
          simp [beq_iff_eq]
          omega
        simp [hji, this, Ne.symm hji]
    · simp [hx]



theorem countLevels_counts (cfg : Config) (gtag g : ℕ) (st2 : MatchState) (m : ℕ)
    (hpre : ∀ j, (st2.gtA j g).isSome = true ↔ j < m)
    (hc : ∀ k, k ∈ cfg.classes →
      (st2.tp k).length = cfg.nsamples ∧ (st2.fn k).length = cfg.nsamples ∧
      (∀ i, (st2.tp k).getD (i + 1) 0 ≤ (st2.tp k).getD i 0) ∧
      (∀ i, i < cfg.nsamples →
        (st2.tp k).getD i 0 + (st2.fn k).getD i 0 + (if k = gtag then 1 else 0)
          = st2.ngt k)) :
    CountsInv cfg (countLevels cfg gtag g st2) := by
  intro k hk
  obtain ⟨hlt, hlf, hmono, hsum⟩ := hc k hk
  have hlen := countFold_len gtag g (List.range cfg.nsamples) st2 k
  have hngt : (countLevels cfg gtag g st2).ngt = st2.ngt :=
    (countFold_rest gtag g (List.range cfg.nsamples) st2).2.2
  have htp : ∀ j, ((countLevels cfg gtag g st2).tp k).getD j 0
      = (st2.tp k).getD j 0 + (if k = gtag ∧ j < m ∧ j < cfg.nsamples then 1 else 0) := by
    intro j
    unfold countLevels
    rw [countFold_tp, count_range]
    by_cases h1 : k = gtag ∧ (st2.gtA j g).isSome = true ∧ j < (st2.tp k).length
    · rcases h1 with ⟨e1, e2, e3⟩
      rw [if_pos ⟨e1, e2, e3⟩]
      have hjm : j < m := (hpre j).mp e2
      simp [e1, hjm]
    · rw [if_neg h1]
      by_cases h2 : k = gtag ∧ j < m ∧ j < cfg.nsamples
      · exact absurd ⟨h2.1, (hpre j).mpr h2.2.1, by rw [hlt]; exact h2.2.2⟩ h1
      · simp [h2]
  have hfn : ∀ j, ((countLevels cfg gtag g st2).fn k).getD j 0
      = (st2.fn k).getD j 0 + (if k = gtag ∧ ¬ (j < m) ∧ j < cfg.nsamples then 1 else 0) := by
    intro j
    unfold countLevels
    rw [countFold_fn, count_range]
    by_cases h1 : k = gtag ∧ (st2.gtA j g).isSome = false ∧ j < (st2.fn k).length
    · rcases h1 with ⟨e1, e2, e3⟩
      rw [if_pos ⟨e1, e2, e3⟩]
      have hjm : ¬ (j < m) := by
        rw [← hpre j]
        simp [e2]
      simp [e1, hjm]
    · rw [if_neg h1]
      by_cases h2 : k = gtag ∧ ¬ (j < m) ∧ j < cfg.nsamples
      · refine absurd ⟨h2.1, ?_, by rw [hlf]; exact h2.2.2⟩ h1
        have hnt : ¬ ((st2.gtA j g).isSome = true) := by
          rw [hpre j]; exact h2.2.1
        exact Bool.eq_false_iff.mpr hnt
      · rw [if_neg h2]
  refine ⟨hlen.1.trans hlt, hlen.2.trans hlf, ?_, ?_⟩
  · intro i
    rw [htp (i + 1), htp i]
    have := hmono i
    split_ifs <;> omega
  · intro i hi
    rw [htp i, hfn i, hngt]
    have hs := hsum i hi
    by_cases hkg : k = gtag
    · rw [if_pos hkg] at hs
      split_ifs <;> omega
    · rw [if_neg hkg] at hs
      split_ifs <;> omega


theorem assignLevels_dtA (g d lv : ℕ) (st : MatchState) (a b : ℕ) :
    (assignLevels g d lv st).dtA a b
      = if a < lv ∧ b = d ∧ st.dtA a d = none then some g else st.dtA a b := by
  unfold assignLevels
  rw [assignFold_dtA]
  simp [List.mem_range]

theorem assignLevels_gtA (g d lv : ℕ) (st : MatchState) (a b : ℕ) :
    (assignLevels g d lv st).gtA a b
      = if a < lv ∧ b = g ∧ st.dtA a d = none then some d else st.gtA a b := by
  unfold assignLevels
  rw [assignFold_gtA]
  simp [List.mem_range]

theorem assignLevels_rest (g d lv : ℕ) (st : MatchState) :
    (assignLevels g d lv st).tp = st.tp ∧ (assignLevels g d lv st).fn = st.fn ∧
    (assignLevels g d lv st).ngt = st.ngt :=
  assignFold_rest g d (List.range lv) st

theorem countLevels_dtA (cfg : Config) (gtag g : ℕ) (st : MatchState) :
    (countLevels cfg gtag g st).dtA = st.dtA :=
  (countFold_rest gtag g (List.range cfg.nsamples) st).1

theorem countLevels_gtA (cfg : Config) (gtag g : ℕ) (st : MatchState) :
    (countLevels cfg gtag g st).gtA = st.gtA :=
  (countFold_rest gtag g (List.range cfg.nsamples) st).2.1


theorem gtStep_spec (cfg : Config) (gts dts : List Box) (iou : ℕ → ℕ → ℚ) (order : List ℕ)
    (st : MatchState) (g : ℕ)
    (hdt : DtInv cfg dts st) (hfresh : ∀ l, st.gtA l g = none)
    (hcnt : CountsInv cfg st) (hfirst : GtFirst cfg gts dts iou order st) :
    DtInv cfg dts (gtStep cfg gts dts iou order st g) ∧
    GtFirst cfg gts dts iou order (gtStep cfg gts dts iou order st g) ∧
    CountsInv cfg (gtStep cfg gts dts iou order st g) ∧
    (∀ e, e ≠ g → ∀ l, (gtStep cfg gts dts iou order st g).gtA l e = st.gtA l e) := by
  by_cases htr : (gts.getD g default).tag ∈ cfg.classes
  case neg =>
    have hstep : gtStep cfg gts dts iou order st g = st := by
      simp only [gtStep]
      rw [if_neg htr]
    rw [hstep]
    exact ⟨hdt, hfirst, hcnt, fun e _ l => rfl⟩
  case pos =>
    cases hfm : findMatch cfg dts iou order ((gts.getD g default).tag) g with
    | none =>
      have hstep : gtStep cfg gts dts iou order st g
          = countLevels cfg ((gts.getD g default).tag) g
              { st with ngt := fun x => if x = (gts.getD g default).tag
                  then st.ngt x + 1 else st.ngt x } := by
        simp only [gtStep]
        rw [if_pos htr, hfm]
      rw [hstep]
      refine ⟨?_, ?_, ?_, ?_⟩
      · intro e
        rw [countLevels_dtA]
        exact hdt e
      · intro e l dd hd
        rw [countLevels_gtA] at hd
        exact hfirst e l dd hd
      · apply countLevels_counts cfg ((gts.getD g default).tag) g _ 0
        · intro j
          simp [hfresh j]
        · intro k hk
          obtain ⟨l1, l2, hmono, hsum⟩ := hcnt k hk
          refine ⟨l1, l2, hmono, ?_⟩
          intro i hi
          have hs := hsum i hi
          show (st.tp k).getD i 0 + (st.fn k).getD i 0 + _
              = if k = (gts.getD g default).tag then st.ngt k + 1 else st.ngt k
          split_ifs <;> omega
      · intro e he l
        rw [countLevels_gtA]
    | some d =>
      have hL : dtLoc cfg dts d = searchsorted cfg.thresholds (dts.getD d default).score := rfl
      rcases hdt d with hempty | hfull
      · -- the matched detection was previously assigned nowhere
        have hstep : gtStep cfg gts dts iou order st g
            = countLevels cfg ((gts.getD g default).tag) g
                { assignLevels g d (searchsorted cfg.thresholds (dts.getD d default).score) st
                  with ngt := fun x => if x = (gts.getD g default).tag
                    then (assignLevels g d
                      (searchsorted cfg.thresholds (dts.getD d default).score) st).ngt x + 1
                    else (assignLevels g d
                      (searchsorted cfg.thresholds (dts.getD d default).score) st).ngt x } := by
          simp only [gtStep]
          rw [if_pos htr, hfm]
        have hdtA1 : ∀ a b,
            (assignLevels g d (searchsorted cfg.thresholds (dts.getD d default).score) st).dtA a b
              = if a < dtLoc cfg dts d ∧ b = d then some g else st.dtA a b := by
          intro a b
          rw [assignLevels_dtA, ← hL]
          by_cases hc1 : a < dtLoc cfg dts d ∧ b = d
          · rw [if_pos ⟨hc1.1, hc1.2, hempty a⟩, if_pos hc1]
          · rw [if_neg ?_, if_neg hc1]
            intro hc2
            exact hc1 ⟨hc2.1, hc2.2.1⟩
        have hgtA1 : ∀ a b,
            (assignLevels g d (searchsorted cfg.thresholds (dts.getD d default).score) st).gtA a b
              = if a < dtLoc cfg dts d ∧ b = g then some d else st.gtA a b := by
          intro a b
          rw [assignLevels_gtA, ← hL]
          by_cases hc1 : a < dtLoc cfg dts d ∧ b = g
          · rw [if_pos ⟨hc1.1, hc1.2, hempty a⟩, if_pos hc1]
          · rw [if_neg ?_, if_neg hc1]
            intro hc2
            exact hc1 ⟨hc2.1, hc2.2.1⟩
        have hrest := assignLevels_rest g d
          (searchsorted cfg.thresholds (dts.getD d default).score) st
        rw [hstep]
        refine ⟨?_, ?_, ?_, ?_⟩
        · intro e
          rw [countLevels_dtA]
          by_cases hed : e = d
          · subst hed
            refine Or.inr ?_
            intro l
            show ((assignLevels g e _ st).dtA l e).isSome = true ↔ l < dtLoc cfg dts e
            rw [hdtA1 l e]
            by_cases hl : l < dtLoc cfg dts e
            · simp [hl]
            · simp [hl, hempty l]
          · rcases hdt e with he | he
            · refine Or.inl ?_
              intro l
              show (assignLevels g d _ st).dtA l e = none
              rw [hdtA1 l e]
              simp [hed, he l]
            · refine Or.inr ?_
              intro l
              show ((assignLevels g d _ st).dtA l e).isSome = true ↔ l < dtLoc cfg dts e
              rw [hdtA1 l e]
              simp [hed]
              exact he l
        · intro e l dd hd
          rw [countLevels_gtA] at hd
          rw [show ({ assignLevels g d (searchsorted cfg.thresholds
              (dts.getD d default).score) st with ngt := fun x =>
                if x = (gts.getD g default).tag
                then (assignLevels g d (searchsorted cfg.thresholds
                  (dts.getD d default).score) st).ngt x + 1
                else (assignLevels g d (searchsorted cfg.thresholds
                  (dts.getD d default).score) st).ngt x } : MatchState).gtA
              = (assignLevels g d (searchsorted cfg.thresholds
                (dts.getD d default).score) st).gtA from rfl] at hd
          rw [hgtA1] at hd
          by_cases hc1 : l < dtLoc cfg dts d ∧ e = g
          · rw [if_pos hc1] at hd
            cases hd
            rw [hc1.2]
            exact hfm
          · rw [if_neg hc1] at hd
            exact hfirst e l dd hd
        · apply countLevels_counts cfg ((gts.getD g default).tag) g _ (dtLoc cfg dts d)
          · intro j
            show ((assignLevels g d _ st).gtA j g).isSome = true ↔ j < dtLoc cfg dts d
            rw [hgtA1 j g]
            by_cases hl : j < dtLoc cfg dts d
            · simp [hl]
            · simp [hl, hfresh j]
          · intro k hk
            obtain ⟨l1, l2, hmono, hsum⟩ := hcnt k hk
            have htp1 : (assignLevels g d (searchsorted cfg.thresholds
                (dts.getD d default).score) st).tp = st.tp := hrest.1
            have hfn1 : (assignLevels g d (searchsorted cfg.thresholds
                (dts.getD d default).score) st).fn = st.fn := hrest.2.1
            have hngt1 : (assignLevels g d (searchsorted cfg.thresholds
                (dts.getD d default).score) st).ngt = st.ngt := hrest.2.2
            refine ⟨?_, ?_, ?_, ?_⟩
            · show ((assignLevels g d _ st).tp k).length = cfg.nsamples
              rw [htp1]; exact l1
            · show ((assignLevels g d _ st).fn k).length = cfg.nsamples
              rw [hfn1]; exact l2
            · intro i
              show ((assignLevels g d _ st).tp k).getD (i + 1) 0
                ≤ ((assignLevels g d _ st).tp k).getD i 0
              rw [htp1]; exact hmono i
            · intro i hi
              have hs := hsum i hi
              show ((assignLevels g d _ st).tp k).getD i 0
                  + ((assignLevels g d _ st).fn k).getD i 0 + _
                = if k = (gts.getD g default).tag
                  then (assignLevels g d _ st).ngt k + 1
                  else (assignLevels g d _ st).ngt k
              rw [htp1, hfn1, hngt1]
              split_ifs <;> omega
        · intro e he l
          rw [countLevels_gtA]
          show (assignLevels g d _ st).gtA l e = st.gtA l e
          rw [hgtA1 l e]
          simp [he]
      · -- the matched detection was already fully assigned: nothing changes
        have hstep : gtStep cfg gts dts iou order st g
            = countLevels cfg ((gts.getD g default).tag) g
                { assignLevels g d (searchsorted cfg.thresholds (dts.getD d default).score) st
                  with ngt := fun x => if x = (gts.getD g default).tag
                    then (assignLevels g d
                      (searchsorted cfg.thresholds (dts.getD d default).score) st).ngt x + 1
                    else (assignLevels g d
                      (searchsorted cfg.thresholds (dts.getD d default).score) st).ngt x } := by
          simp only [gtStep]
          rw [if_pos htr, hfm]
        have hdtA1 : ∀ a b,
            (assignLevels g d (searchsorted cfg.thresholds (dts.getD d default).score) st).dtA a b
              = st.dtA a b := by
          intro a b
          rw [assignLevels_dtA, ← hL]
          rw [if_neg ?_]
          intro hc
          have : (st.dtA a d).isSome = true := (hfull a).mpr hc.1
          rw [hc.2.2] at this
          simp at this
        have hgtA1 : ∀ a b,
            (assignLevels g d (searchsorted cfg.thresholds (dts.getD d default).score) st).gtA a b
              = st.gtA a b := by
          intro a b
          rw [assignLevels_gtA, ← hL]
          rw [if_neg ?_]
          intro hc
          have : (st.dtA a d).isSome = true := (hfull a).mpr hc.1
          rw [hc.2.2] at this
          simp at this
        have hrest := assignLevels_rest g d
          (searchsorted cfg.thresholds (dts.getD d default).score) st
        rw [hstep]
        refine ⟨?_, ?_, ?_, ?_⟩
        · intro e
          rw [countLevels_dtA]
          rcases hdt e with he | he
          · refine Or.inl fun l => ?_
            show (assignLevels g d _ st).dtA l e = none
            rw [hdtA1]; exact he l
          · refine Or.inr fun l => ?_
            show ((assignLevels g d _ st).dtA l e).isSome = true ↔ l < dtLoc cfg dts e
            rw [hdtA1]; exact he l
        · intro e l dd hd
          rw [countLevels_gtA] at hd
          replace hd : (assignLevels g d (searchsorted cfg.thresholds
              (dts.getD d default).score) st).gtA l e = some dd := hd
          rw [hgtA1] at hd
          exact hfirst e l dd hd
        · apply countLevels_counts cfg ((gts.getD g default).tag) g _ 0
          · intro j
            show ((assignLevels g d _ st).gtA j g).isSome = true ↔ j < 0
            rw [hgtA1]
            simp [hfresh j]
          · intro k hk
            obtain ⟨l1, l2, hmono, hsum⟩ := hcnt k hk
            refine ⟨?_, ?_, ?_, ?_⟩
            · show ((assignLevels g d _ st).tp k).length = cfg.nsamples
              rw [hrest.1]; exact l1
            · show ((assignLevels g d _ st).fn k).length = cfg.nsamples
              rw [hrest.2.1]; exact l2
            · intro i
              show ((assignLevels g d _ st).tp k).getD (i + 1) 0
                ≤ ((assignLevels g d _ st).tp k).getD i 0
              rw [hrest.1]; exact hmono i
            · intro i hi
              have hs := hsum i hi
              show ((assignLevels g d _ st).tp k).getD i 0
                  + ((assignLevels g d _ st).fn k).getD i 0 + _
                = if k = (gts.getD g default).tag
                  then (assignLevels g d _ st).ngt k + 1
                  else (assignLevels g d _ st).ngt k
              rw [hrest.1, hrest.2.1, hrest.2.2]
              split_ifs <;> omega
        · intro e he l
          rw [countLevels_gtA]
          show (assignLevels g d _ st).gtA l e = st.gtA l e
          rw [hgtA1]


theorem matchLoop_inv (cfg : Config) (gts dts : List Box) (iou : ℕ → ℕ → ℚ) (order : List ℕ) :
    ∀ (gs : List ℕ) (st : MatchState), gs.Nodup →
      DtInv cfg dts st → GtFresh st gs → CountsInv cfg st → GtFirst cfg gts dts iou order st →
      DtInv cfg dts (gs.foldl (gtStep cfg gts dts iou order) st) ∧
      GtFirst cfg gts dts iou order (gs.foldl (gtStep cfg gts dts iou order) st) ∧
      CountsInv cfg (gs.foldl (gtStep cfg gts dts iou order) st) := by
  intro gs
  induction gs with
  | nil => intro st _ h1 _ h3 h4; exact ⟨h1, h4, h3⟩
  | cons g rest ih =>
    intro st hnd h1 h2 h3 h4
    obtain ⟨hg, hrest⟩ := List.nodup_cons.mp hnd
    rw [List.foldl_cons]
    obtain ⟨hd1, hf1, hc1, hother⟩ :=
      gtStep_spec cfg gts dts iou order st g h1 (h2 g (by simp)) h3 h4
    refine ih _ hrest hd1 ?_ hc1 hf1
    intro e he l
    rw [hother e ?_ l]
    · exact h2 e (by simp [he]) l
    · intro heg
      rw [heg] at he
      exact hg he

theorem initMatchState_dtInv (cfg : Config) (dts : List Box) :
    DtInv cfg dts (initMatchState cfg) :=
  fun _ => Or.inl fun _ => rfl

theorem initMatchState_fresh (cfg : Config) (pending : List ℕ) :
    GtFresh (initMatchState cfg) pending :=
  fun _ _ _ => rfl

theorem initMatchState_first (cfg : Config) (gts dts : List Box) (iou : ℕ → ℕ → ℚ)
    (order : List ℕ) : GtFirst cfg gts dts iou order (initMatchState cfg) :=
  fun _ _ _ h => absurd h (by simp [initMatchState])

theorem initCounts_getD (cfg : Config) (k j : ℕ) : (initCounts cfg k).getD j 0 = 0 := by
  unfold initCounts
  split
  · rw [List.getD_eq_getElem?_getD]
    rcases h : (List.replicate cfg.nsamples (0 : ℕ))[j]? with - | v
    · rfl
    · have := List.getElem?_mem h
      rw [List.eq_of_mem_replicate this]
      rfl
  · rfl

theorem initMatchState_counts (cfg : Config) : CountsInv cfg (initMatchState cfg) := by
  intro k hk
  refine ⟨by simp [initMatchState, initCounts, hk], by simp [initMatchState, initCounts, hk],
    ?_, ?_⟩
  · intro i
    show (initCounts cfg k).getD (i + 1) 0 ≤ (initCounts cfg k).getD i 0
    rw [initCounts_getD, initCounts_getD]
  · intro i _
    show (initCounts cfg k).getD i 0 + (initCounts cfg k).getD i 0 = 0
    rw [initCounts_getD]

theorem matchLoop_spec (cfg : Config) (gts dts : List Box) (iou : ℕ → ℕ → ℚ)
    (order : List ℕ) :
    DtInv cfg dts (matchLoop cfg gts dts iou order) ∧
    GtFirst cfg gts dts iou order (matchLoop cfg gts dts iou order) ∧
    CountsInv cfg (matchLoop cfg gts dts iou order) :=
  matchLoop_inv cfg gts dts iou order (List.range gts.length) (initMatchState cfg)
    (List.nodup_range gts.length) (initMatchState_dtInv cfg dts)
    (initMatchState_fresh cfg _) (initMatchState_counts cfg)
    (initMatchState_first cfg gts dts iou order)

theorem getStats_good (cfg : Config) (gts dts : List Box) (iou : ℕ → ℕ → ℚ) :
    GoodStats cfg (getStats cfg gts dts iou) := by
  intro k hk
  obtain ⟨-, -, hc⟩ := matchLoop_spec cfg gts dts iou (argsortDesc (dts.map Box.score))
  obtain ⟨-, -, hmono, hsum⟩ := hc k hk
  exact ⟨hmono, hsum⟩


/-- Claim C2: whenever the matcher records a detection `d` for a
tracked ground truth `g` at any level, `d` is the first detection in
the descending-confidence-score scan order whose top class equals the
ground truth's and whose IoU with it strictly exceeds the
class-specific threshold (`find?` of the acceptance predicate); the
scan order is sorted by descending score. -/
theorem claim2_matched_detection_is_first_acceptable (cfg : Config) (gts dts : List Box)
    (iou : ℕ → ℕ → ℚ) (g l d : ℕ)
    (htr : (gts.getD g default).tag ∈ cfg.classes)
    (hassign : (matchLoop cfg gts dts iou (argsortDesc (dts.map Box.score))).gtA l g
      = some d) :
    List.Sorted (fun i j => (dts.map Box.score).getD j 0 ≤ (dts.map Box.score).getD i 0)
      (argsortDesc (dts.map Box.score)) ∧
    findMatch cfg dts iou (argsortDesc (dts.map Box.score)) (gts.getD g default).tag g
      = some d := by
  constructor
  · unfold argsortDesc argsortAsc
    rw [List.Sorted, List.pairwise_reverse]
    exact List.sorted_insertionSort (scoreLE (dts.map Box.score))
      (List.range (dts.map Box.score).length)
  · obtain ⟨-, hfirst, -⟩ := matchLoop_spec cfg gts dts iou (argsortDesc (dts.map Box.score))
    exact hfirst g l d hassign

/-- Witness for C2 at the concrete scenario: ground truth 0 is
assigned detection 0 at level 0, and detection 0 is indeed the first
acceptable one in scan order. -/
theorem claim2_witness :
    List.Sorted (fun i j => (dts5.map Box.score).getD j 0 ≤ (dts5.map Box.score).getD i 0)
      (argsortDesc (dts5.map Box.score)) ∧
    findMatch cfg5 dts5 iou5 (argsortDesc (dts5.map Box.score)) (gts5.getD 0 default).tag 0
      = some 0 :=
  claim2_matched_detection_is_first_acceptable cfg5 gts5 dts5 iou5 0 0 0 (by decide)
    (by norm_num [matchLoop, gtStep, countLevels, countStep, assignLevels, assignStep,
      findMatch, matchPred, argsortDesc, argsortAsc, scoreLE, searchsorted,
      initMatchState, initCounts, updC, listInc, cfg5, gts5, dts5, iou5, prThresholdsLin,
      linspaceNoEndpoint, List.range_succ, List.takeWhile])


theorem initAgg_good (cfg : Config) : AggGood cfg (initAgg cfg) := by
  intro k
  constructor
  · intro hk
    refine ⟨by simp [initAgg, initCounts, hk], by simp [initAgg, initCounts, hk], ?_, ?_⟩
    · intro i
      show (initCounts cfg k).getD (i + 1) 0 ≤ (initCounts cfg k).getD i 0
      rw [initCounts_getD, initCounts_getD]
    · intro i _
      show (initCounts cfg k).getD i 0 + (initCounts cfg k).getD i 0 = 0
      rw [initCounts_getD]
  · intro _ i
    exact ⟨initCounts_getD cfg k i, initCounts_getD cfg k i⟩

theorem addStats_good (cfg : Config) (A : AggState) (F : FrameStats)
    (hA : AggGood cfg A) (hF : GoodStats cfg F) : AggGood cfg (addStats cfg A F) := by
  intro k
  obtain ⟨hin, hout⟩ := hA k
  constructor
  · intro hk
    obtain ⟨hl1, hl2, hmono, hsum⟩ := hin hk
    obtain ⟨hFm, hFs⟩ := hF k hk
    refine ⟨by rw [addStats_len_tp]; exact hl1, by rw [addStats_len_fn]; exact hl2, ?_, ?_⟩
    · intro i
      rw [addStats_tp, addStats_tp, hl1]
      by_cases h1 : i + 1 < cfg.nsamples
      · rw [if_pos ⟨h1, h1⟩, if_pos ⟨by omega, by omega⟩]
        have hm := hmono i
        have hmul : cfg.classes.count k * (F.tp k).getD (i + 1) 0
            ≤ cfg.classes.count k * (F.tp k).getD i 0 :=
          Nat.mul_le_mul_left _ (hFm i)
        omega
      · rw [if_neg (by omega)]
        have hz : (A.tp k).getD (i + 1) 0 = 0 := by
          rw [List.getD_eq_getElem?_getD,
            List.getElem?_eq_none (by omega : (A.tp k).length ≤ i + 1)]
          rfl
        rw [hz]
        exact Nat.zero_le _
    · intro i hi
      rw [addStats_tp, addStats_fn, addStats_totalGt, hl1, hl2,
        if_pos ⟨hi, hi⟩, if_pos ⟨hi, hi⟩]
      have h1 := hsum i hi
      have h2 : cfg.classes.count k * (F.tp k).getD i 0
          + cfg.classes.count k * (F.fn k).getD i 0
          = cfg.classes.count k * F.ngt k := by
        rw [← Nat.mul_add, hFs i hi]
      omega
  · intro hk i
    obtain ⟨e1, e2⟩ := hout hk i
    have hc : cfg.classes.count k = 0 := List.count_eq_zero.mpr hk
    constructor
    · rw [addStats_tp, hc, e1]
      simp
    · rw [addStats_fn, hc, e2]
      simp

theorem accumFrames_good (cfg : Config) (frames : List FrameInput) :
    AggGood cfg (accumFrames cfg frames) := by
  unfold accumFrames
  suffices h : ∀ (fs : List FrameInput) (A : AggState), AggGood cfg A →
      AggGood cfg ((fs.map fun f => getStats cfg f.gts f.dts f.iou).foldl (addStats cfg) A) by
    exact h frames (initAgg cfg) (initAgg_good cfg)
  intro fs
  induction fs with
  | nil => intro A hA; exact hA
  | cons f rest ih =>
    intro A hA
    rw [List.map_cons, List.foldl_cons]
    exact ih _ (addStats_good cfg A _ hA (getStats_good cfg f.gts f.dts f.iou))

/-- Claim C6 (amended): for every state accumulated by `add_stats`
from per-frame `get_stats` results, every class, and every ladder
level `i` with `i+1` in range, recall at level `i+1` (the HIGHER
threshold) is ≤ recall at level `i`; the spec's stated direction
(≥, calling level i+1 the lower threshold) is reversed, since index 0
holds the lowest threshold. -/
theorem claim6_recall_antitone_in_level (cfg : Config) (frames : List FrameInput) (k i : ℕ)
    (h : i + 1 < cfg.nsamples) :
    recallCurve (accumFrames cfg frames) k (i + 1)
      ≤ recallCurve (accumFrames cfg frames) k i := by
  obtain ⟨hin, hout⟩ := accumFrames_good cfg frames k
  by_cases hk : k ∈ cfg.classes
  · obtain ⟨hl1, hl2, hmono, hsum⟩ := hin hk
    have hs1 := hsum i (by omega)
    have hs2 := hsum (i + 1) h
    have hm := hmono i
    unfold recallCurve
    by_cases hf1 : ((accumFrames cfg frames).fn k).getD i 0 = 0
    · rw [if_pos hf1]
      by_cases hf2 : ((accumFrames cfg frames).fn k).getD (i + 1) 0 = 0
      · rw [if_pos hf2]
      · rw [if_neg hf2]
        apply div_le_one_of_le₀
        · have h0 : (0 : ℚ) ≤ (((accumFrames cfg frames).fn k).getD (i + 1) 0 : ℚ) := by
            positivity
          linarith
        · positivity
    · rw [if_neg hf1]
      have hf2 : ¬ ((accumFrames cfg frames).fn k).getD (i + 1) 0 = 0 := by omega
      rw [if_neg hf2]
      have hG : ((accumFrames cfg frames).tp k).getD (i + 1) 0
          + ((accumFrames cfg frames).fn k).getD (i + 1) 0
          = ((accumFrames cfg frames).tp k).getD i 0
            + ((accumFrames cfg frames).fn k).getD i 0 := by omega
      have hGq : (((accumFrames cfg frames).tp k).getD (i + 1) 0 : ℚ)
          + (((accumFrames cfg frames).fn k).getD (i + 1) 0 : ℚ)
          = (((accumFrames cfg frames).tp k).getD i 0 : ℚ)
            + (((accumFrames cfg frames).fn k).getD i 0 : ℚ) := by
        exact_mod_cast congrArg (fun t : ℕ => (t : ℚ)) hG
      rw [hGq]
      have hpos : (0 : ℚ) < (((accumFrames cfg frames).tp k).getD i 0 : ℚ)
          + (((accumFrames cfg frames).fn k).getD i 0 : ℚ) := by
        have hn : 0 < ((accumFrames cfg frames).fn k).getD i 0 := Nat.pos_of_ne_zero hf1
        have h0 : (0:ℚ) ≤ (((accumFrames cfg frames).tp k).getD i 0 : ℚ) := by positivity
        have hq : (0:ℚ) < (((accumFrames cfg frames).fn k).getD i 0 : ℚ) := by
          exact_mod_cast hn
        linarith
      rw [div_le_div_iff_of_pos_right hpos]
      exact_mod_cast hm
  · unfold recallCurve
    rw [(hout hk (i + 1)).2, (hout hk i).2]
    simp

/-- Witness for C6 (amended) at a concrete run with one frame. -/
theorem claim6_witness :
    recallCurve (accumFrames cfg5 [⟨gts5, dts5, iou5⟩]) 0 (0 + 1)
      ≤ recallCurve (accumFrames cfg5 [⟨gts5, dts5, iou5⟩]) 0 0 :=
  claim6_recall_antitone_in_level cfg5 [⟨gts5, dts5, iou5⟩] 0 0 (by decide)


/-- Claim C10: for a query with an explicit score that is ≤ the lowest
ladder threshold, `_get_score_idx` returns `searchsorted - 1 = -1`,
and every count / metric query (tp, fp, fn, detection count,
precision, recall) reads the LAST (highest-threshold) level of its
per-class list — Python's negative index wraps to the end. -/
theorem claim10_low_score_queries_hit_last_level (cfg : Config) (A : AggState) (s : ℚ)
    (k : ℕ) (hth : cfg.thresholds ≠ []) (hs : s ≤ cfg.thresholds.getD 0 0)
    (hn : 0 < cfg.nsamples)
    (hlen : (A.tp k).length = cfg.nsamples ∧ (A.fp k).length = cfg.nsamples ∧
      (A.fn k).length = cfg.nsamples ∧ (A.totalDt k).length = cfg.nsamples) :
    getScoreIdx cfg (some s) = -1 ∧
    tpQ cfg A (some s) k = (A.tp k).getD (cfg.nsamples - 1) 0 ∧
    fpQ cfg A (some s) k = (A.fp k).getD (cfg.nsamples - 1) 0 ∧
    fnQ cfg A (some s) k = (A.fn k).getD (cfg.nsamples - 1) 0 ∧
    dtQ cfg A (some s) k = (A.totalDt k).getD (cfg.nsamples - 1) 0 ∧
    precisionQ cfg A (some s) k
      = (if 0 < (A.fp k).getD (cfg.nsamples - 1) 0
         then ((A.tp k).getD (cfg.nsamples - 1) 0 : ℚ)
            / (((A.tp k).getD (cfg.nsamples - 1) 0 : ℚ)
              + ((A.fp k).getD (cfg.nsamples - 1) 0 : ℚ))
         else 1) ∧
    recallQ cfg A (some s) k
      = (if 0 < (A.fn k).getD (cfg.nsamples - 1) 0
         then ((A.tp k).getD (cfg.nsamples - 1) 0 : ℚ)
            / (((A.tp k).getD (cfg.nsamples - 1) 0 : ℚ)
              + ((A.fn k).getD (cfg.nsamples - 1) 0 : ℚ))
         else 1) := by
  have hss : searchsorted cfg.thresholds s = 0 := by
    cases hcl : cfg.thresholds with
    | nil => rfl
    | cons h t =>
      unfold searchsorted
      rw [List.takeWhile_cons]
      have hnl : ¬ (h < s) := by
        rw [hcl] at hs
        exact not_lt.mpr hs
      simp [hnl]
  have hidx : getScoreIdx cfg (some s) = -1 := by
    show (searchsorted cfg.thresholds s : ℤ) - 1 = -1
    rw [hss]
    rfl
  have hpy : ∀ (l : List ℕ), l.length = cfg.nsamples →
      pyGet l (-1) = l.getD (cfg.nsamples - 1) 0 := by
    intro l hl
    unfold pyGet
    rw [if_neg (by norm_num)]
    rw [hl]
    norm_num
  have htp : tpQ cfg A (some s) k = (A.tp k).getD (cfg.nsamples - 1) 0 := by
    unfold tpQ
    rw [hidx]
    exact hpy _ hlen.1
  have hfp : fpQ cfg A (some s) k = (A.fp k).getD (cfg.nsamples - 1) 0 := by
    unfold fpQ
    rw [hidx]
    exact hpy _ hlen.2.1
  have hfn : fnQ cfg A (some s) k = (A.fn k).getD (cfg.nsamples - 1) 0 := by
    unfold fnQ
    rw [hidx]
    exact hpy _ hlen.2.2.1
  have hdt : dtQ cfg A (some s) k = (A.totalDt k).getD (cfg.nsamples - 1) 0 := by
    unfold dtQ
    rw [hidx]
    exact hpy _ hlen.2.2.2
  refine ⟨hidx, htp, hfp, hfn, hdt, ?_, ?_⟩
  · unfold precisionQ
    rw [htp, hfp]
  · unfold recallQ
    rw [htp, hfn]

/-- Witness for C10 at the concrete scenario with score 0. -/
theorem claim10_witness :
    getScoreIdx cfg5 (some 0) = -1 ∧
    tpQ cfg5 agg5 (some 0) 0 = (agg5.tp 0).getD (cfg5.nsamples - 1) 0 ∧
    fpQ cfg5 agg5 (some 0) 0 = (agg5.fp 0).getD (cfg5.nsamples - 1) 0 ∧
    fnQ cfg5 agg5 (some 0) 0 = (agg5.fn 0).getD (cfg5.nsamples - 1) 0 ∧
    dtQ cfg5 agg5 (some 0) 0 = (agg5.totalDt 0).getD (cfg5.nsamples - 1) 0 ∧
    precisionQ cfg5 agg5 (some 0) 0
      = (if 0 < (agg5.fp 0).getD (cfg5.nsamples - 1) 0
         then ((agg5.tp 0).getD (cfg5.nsamples - 1) 0 : ℚ)
            / (((agg5.tp 0).getD (cfg5.nsamples - 1) 0 : ℚ)
              + ((agg5.fp 0).getD (cfg5.nsamples - 1) 0 : ℚ))
         else 1) ∧
    recallQ cfg5 agg5 (some 0) 0
      = (if 0 < (agg5.fn 0).getD (cfg5.nsamples - 1) 0
         then ((agg5.tp 0).getD (cfg5.nsamples - 1) 0 : ℚ)
            / (((agg5.tp 0).getD (cfg5.nsamples - 1) 0 : ℚ)
              + ((agg5.fn 0).getD (cfg5.nsamples - 1) 0 : ℚ))
         else 1) :=
  claim10_low_score_queries_hit_last_level cfg5 agg5 0 0
    (by rw [cfg5_thresholds]; simp)
    (by rw [cfg5_thresholds]; norm_num)
    (by decide)
    ⟨by rw [agg5_eval.1]; rfl, by rw [agg5_eval.2.1]; rfl, by rw [agg5_eval.2.2.1]; rfl,
      by rw [agg5_eval.2.2.2.1]; rfl⟩

end D3dBenchmarks
